import Mathlib

/-!
Verification of the WhatsApp-bot session manager and message router.

This file shallowly embeds the Python sources of the repository:
 * `app/utils/session_manager.py` (`SessionManager`): sessions are Python
   dicts keyed by WhatsApp user id; the store is a dict preserving
   insertion order, modelled here as an association list `Store`.
   Timestamps (`datetime.now()`) are modelled as integers (seconds); a
   `datetime` difference `.total_seconds()` is integer subtraction.
   History timestamps are stored by the source as `isoformat()` strings
   at append time, modelled by the injective encoder `isoOf` with parser
   `isoParse` (modelling `datetime.fromisoformat`).
 * `app/utils/whatsapp_utils.py`: keyword intent detection, WhatsApp text
   post-processing and the message router `process_whatsapp_message`.
 * `app/services/ai_service.py`: the assistant polling loop.
 * `app/whatsapp/handlers.py`: webhook subscription verification.

Calls to the outbound delivery function (`send_message_func` /
`send_whatsapp_message_background`) are modelled by returning the list of
`(recipient, text)` pairs handed to the notifier.
-/

/-- One entry of a session's `message_history`.  The source stores the
timestamp as an `isoformat()` string, and adds a `'type': 'system'` key
only for sweeper notices (`msgType = none` means the key is absent). -/
structure HistEntry where
  role : String
  content : String
  timestamp : String
  msgType : Option String
deriving DecidableEq

/-- The `meta` sub-dict of a session. -/
structure Meta where
  total_messages : Nat
  session_restarts : Nat
deriving DecidableEq

/-- A user session, mirroring the dict created in
`SessionManager.get_session`.  `context` is the state-scoped string map,
modelled as an insertion-ordered association list like a Python dict. -/
structure Session where
  created_at : Int
  last_activity : Int
  state : String
  context : List (String × String)
  thread_id : Option String
  message_history : List HistEntry
  inactivity_warning_sent : Bool
  closing_notice_sent : Bool
  meta : Meta
deriving DecidableEq

/-- Association-list lookup, mirroring Python dict indexing (first — and
for a real dict, only — binding of the key wins). -/
def alookup {α : Type} : List (String × α) → String → Option α
  | [], _ => none
  | (k, v) :: t, u => if k = u then some v else alookup t u

/-- Association-list assignment `d[u] = s`: replaces the binding in place
when the key is present (Python dicts keep insertion order), appends at
the end otherwise. -/
def aset {α : Type} : List (String × α) → String → α → List (String × α)
  | [], u, s => [(u, s)]
  | (k, v) :: t, u, s => if k = u then (u, s) :: t else (k, v) :: aset t u s

/-- Association-list deletion `del d[u]`. -/
def aerase {α : Type} : List (String × α) → String → List (String × α)
  | [], _ => []
  | (k, v) :: t, u => if k = u then t else (k, v) :: aerase t u

/-- The session store `SessionManager.sessions`. -/
def Store : Type := List (String × Session)

/-- Keys of a store, in insertion order. -/
def keys {α : Type} (st : List (String × α)) : List String := st.map Prod.fst

/-- A Python dict never holds the same key twice. -/
def NodupKeys {α : Type} (st : List (String × α)) : Prop := (keys st).Nodup

/-- Decimal digit characters of a positive natural number (empty for 0);
used by the `isoformat` model `isoOf`. -/
def natChars : Nat → List Char
  | 0 => []
  | n + 1 => natChars ((n + 1) / 10) ++ [Char.ofNat (48 + (n + 1) % 10)]
decreasing_by exact Nat.div_lt_self (Nat.succ_pos n) (by norm_num)

/-- Decimal rendering of a natural number. -/
def natDigits (n : Nat) : List Char :=
  if n = 0 then ['0'] else natChars n

/-- Numeric value of a decimal digit character. -/
def digitVal (c : Char) : Nat := c.toNat - 48

/-- Is `c` a decimal digit? -/
def isDigitChar (c : Char) : Bool := 48 ≤ c.toNat && c.toNat ≤ 57

/-- Parse a list of decimal digit characters (most significant first). -/
def parseNatFrom : Nat → List Char → Nat
  | a, [] => a
  | a, c :: t => parseNatFrom (a * 10 + digitVal c) t

/-- Model of `datetime.isoformat()`: an injective rendering of the
timestamp as a string (decimal seconds, with a sign for negative
values). -/
def isoOf (t : Int) : String :=
  if t < 0 then String.mk ('-' :: natDigits t.natAbs)
  else String.mk (natDigits t.natAbs)

/-- Character-level worker of `isoParse`. -/
def isoParseChars : List Char → Option Int
  | [] => none
  | c :: rest =>
      if c = '-' then
        match rest with
        | [] => none
        | _ :: _ =>
            if rest.all isDigitChar then some (-((parseNatFrom 0 rest : Nat) : Int))
            else none
      else if (c :: rest).all isDigitChar then some (((parseNatFrom 0 (c :: rest) : Nat) : Int))
      else none

/-- Model of `datetime.fromisoformat`: the partial inverse of `isoOf`;
`none` models the `ValueError` raised on a malformed string. -/
def isoParse (s : String) : Option Int := isoParseChars s.data

/-- The fresh session dict built by `SessionManager.get_session` for an
unseen user (and by `restart_session`, up to `meta`). -/
def freshSession (now : Int) : Session :=
  { created_at := now
    last_activity := now
    state := "INITIAL"
    context := []
    thread_id := none
    message_history := []
    inactivity_warning_sent := false
    closing_notice_sent := false
    meta := { total_messages := 0, session_restarts := 0 } }

/-- `SessionManager.get_session`: create a fresh session for an unseen
user; otherwise refresh `last_activity` and clear both notification
flags.  Returns the updated store and the (live) session. -/
def getSession (now : Int) (u : String) (st : Store) : Store × Session :=
  match alookup st u with
  | none => (aset st u (freshSession now), freshSession now)
  | some s =>
      let s' := { s with last_activity := now
                         inactivity_warning_sent := false
                         closing_notice_sent := false }
      (aset st u s', s')

/-- The keyword arguments accepted by `SessionManager.update_session` as
used by the router (`state`, `context`, `thread_id`); `none` means the
keyword was not passed. -/
structure SessionUpdate where
  state : Option String := none
  context : Option (List (String × String)) := none
  thread_id : Option (Option String) := none

/-- The `for key, value in kwargs.items(): if key in session: ...` loop
of `update_session`. -/
def applyUpdate (upd : SessionUpdate) (s : Session) : Session :=
  let s1 := match upd.state with
    | some v => { s with state := v }
    | none => s
  let s2 := match upd.context with
    | some v => { s1 with context := v }
    | none => s1
  match upd.thread_id with
  | some v => { s2 with thread_id := v }
  | none => s2

/-- `SessionManager.update_session`: field updates on an existing
session, then refresh `last_activity` and clear both flags; no-op when
the session is absent. -/
def updateSession (now : Int) (u : String) (upd : SessionUpdate) (st : Store) : Store :=
  match alookup st u with
  | none => st
  | some s =>
      aset st u { applyUpdate upd s with
                    last_activity := now
                    inactivity_warning_sent := false
                    closing_notice_sent := false }

/-- `SessionManager.restart_session`: replace the session with a fresh
one, carrying `meta.total_messages` over and incrementing
`meta.session_restarts`. -/
def restartSession (now : Int) (u : String) (st : Store) : Store :=
  match alookup st u with
  | none => st
  | some s =>
      aset st u { freshSession now with
                    meta := { total_messages := s.meta.total_messages
                              session_restarts := s.meta.session_restarts + 1 } }

/-- `SessionManager.end_session`. -/
def endSession (u : String) (st : Store) : Store := aerase st u

/-- `SessionManager.is_session_active`: the session exists and
`now < last_activity + session_timeout`. -/
def isSessionActive (sessionTimeout : Nat) (now : Int) (u : String) (st : Store) : Bool :=
  match alookup st u with
  | none => false
  | some s => now < s.last_activity + (sessionTimeout : Int)

/-- `SessionManager.add_message_to_history`: append an entry (timestamp
serialized by `isoformat`, no `'type'` key), refresh `last_activity`,
clear both flags, and increment `meta.total_messages`; no-op when the
session is absent. -/
def addMessageToHistory (now : Int) (u role content : String) (st : Store) : Store :=
  match alookup st u with
  | none => st
  | some s =>
      aset st u { s with
        message_history := s.message_history ++
          [{ role := role, content := content, timestamp := isoOf now, msgType := none }]
        last_activity := now
        inactivity_warning_sent := false
        closing_notice_sent := false
        meta := { s.meta with total_messages := s.meta.total_messages + 1 } }

/-- Python's `lst[-limit:]`: the last `limit` elements — except that
`lst[-0:]` is `lst[0:]`, the whole list. -/
def pySliceLast {α : Type} (l : List α) (limit : Nat) : List α :=
  if limit = 0 then l else l.drop (l.length - limit)

/-- `SessionManager.get_message_history`: the last `limit` history
entries (via Python slicing), `[]` when the session is absent. -/
def getMessageHistory (u : String) (limit : Nat) (st : Store) : List HistEntry :=
  match alookup st u with
  | none => []
  | some s => pySliceLast s.message_history limit

/-! ## The expiration sweeper (`_cleanup_expired_sessions` loop body) -/

/-- Sweeper configuration: the constructor arguments of `SessionManager`
plus whether `set_send_message_function` was called. -/
structure Config where
  session_timeout : Nat
  inactivity_warning : Nat
  notifierSet : Bool

/-- A `(recipient, text)` pair handed to `send_message_func`. -/
def Msg : Type := String × String

/-- The per-session body of the scan loop: flag the session and report
whether it was collected into `users_to_warn` / `users_to_close`. -/
def scanSession (cfg : Config) (now : Int) (s : Session) : Session × Bool × Bool :=
  let inactive : Int := now - s.last_activity
  if (cfg.session_timeout : Int) ≤ inactive ∧ s.closing_notice_sent = false then
    ({ s with closing_notice_sent := true }, false, true)
  else if (cfg.inactivity_warning : Int) ≤ inactive ∧ s.inactivity_warning_sent = false then
    ({ s with inactivity_warning_sent := true }, true, false)
  else (s, false, false)

/-- Phase 1 of a sweep tick: under the lock, scan all sessions in
insertion order, set the flags, and collect `users_to_warn` and
`users_to_close`. -/
def sweepScan (cfg : Config) (now : Int) : Store → Store × List String × List String
  | [] => ([], [], [])
  | (k, s) :: t =>
      let r := scanSession cfg now s
      let rest := sweepScan cfg now t
      ((k, r.1) :: rest.1,
       (if r.2.1 then k :: rest.2.1 else rest.2.1),
       (if r.2.2 then k :: rest.2.2 else rest.2.2))

/-- The warning text of `_send_inactivity_warning` (with
`remaining_minutes = (session_timeout - inactivity_warning) // 60`). -/
def warningMessage (cfg : Config) : String :=
  "¿Sigues ahí? Tu sesión se cerrará por inactividad en " ++
    toString ((cfg.session_timeout - cfg.inactivity_warning) / 60) ++ " minutos."

/-- The closing text of `_close_inactive_session`. -/
def closingMessage : String :=
  "Tu sesión ha sido cerrada debido a inactividad. Puedes iniciar una nueva conversación cuando lo necesites."

/-- The system-tagged history entry appended by both sweeper notices. -/
def systemEntry (now : Int) (content : String) : HistEntry :=
  { role := "assistant", content := content, timestamp := isoOf now, msgType := some "system" }

/-- Append a system-tagged notice to a session's history (the
`message_history.append` inside the sweeper's notice senders); touches
nothing else, and is a no-op when the session is absent. -/
def appendSystemEntry (now : Int) (content : String) (u : String) (st : Store) : Store :=
  match alookup st u with
  | none => st
  | some s =>
      aset st u { s with message_history := s.message_history ++ [systemEntry now content] }

/-- `_send_inactivity_warning`: call the notifier (when set), then append
the warning to the session history — without touching `last_activity`,
the flags or `meta`. -/
def sendInactivityWarning (cfg : Config) (now : Int) (st : Store) (u : String) :
    Store × List Msg :=
  (appendSystemEntry now (warningMessage cfg) u st,
   if cfg.notifierSet then [(u, warningMessage cfg)] else [])

/-- `_close_inactive_session`: call the notifier (when set), append the
closing notice to the history, then delete the session. -/
def closeInactiveSession (cfg : Config) (now : Int) (st : Store) (u : String) :
    Store × List Msg :=
  (aerase (appendSystemEntry now closingMessage u st) u,
   if cfg.notifierSet then [(u, closingMessage)] else [])

/-- Phase 2, warning loop: `for user_id in users_to_warn: ...`. -/
def runWarnings (cfg : Config) (now : Int) : List String → Store → Store × List Msg
  | [], st => (st, [])
  | u :: us, st =>
      let r1 := sendInactivityWarning cfg now st u
      let r2 := runWarnings cfg now us r1.1
      (r2.1, r1.2 ++ r2.2)

/-- Phase 2, closing loop: `for user_id in users_to_close: ...`. -/
def runClosures (cfg : Config) (now : Int) : List String → Store → Store × List Msg
  | [], st => (st, [])
  | u :: us, st =>
      let r1 := closeInactiveSession cfg now st u
      let r2 := runClosures cfg now us r1.1
      (r2.1, r1.2 ++ r2.2)

/-- One sweep tick: collect under the lock, then act without it. -/
def sweepTick (cfg : Config) (now : Int) (st : Store) : Store × List Msg :=
  let scn := sweepScan cfg now st
  let w := runWarnings cfg now scn.2.1 scn.1
  let c := runClosures cfg now scn.2.2 w.1
  (c.1, w.2 ++ c.2)

/-- A sequence of sweep ticks at the given times, accumulating all
notifier calls. -/
def iterTicks (cfg : Config) : List Int → Store → Store × List Msg
  | [], st => (st, [])
  | t :: ts, st =>
      let r1 := sweepTick cfg t st
      let r2 := iterTicks cfg ts r1.1
      (r2.1, r1.2 ++ r2.2)

/-- Number of notifier calls delivering `text` to `u`. -/
def countMsg (msgs : List Msg) (u text : String) : Nat :=
  (msgs.filter (fun m => m.1 = u && m.2 = text)).length

/-! ## Keyword intent detection and text post-processing
(`app/utils/whatsapp_utils.py`) -/

/-- Is `nd` a prefix of `hay`? (helper for substring containment). -/
def isPrefList : List Char → List Char → Bool
  | [], _ => true
  | _ :: _, [] => false
  | c :: nt, h :: ht => c = h && isPrefList nt ht

/-- Python's `needle in haystack` substring test. -/
def containsSub (hay nd : List Char) : Bool :=
  match hay with
  | [] => isPrefList nd []
  | _ :: t => isPrefList nd hay || containsSub t nd

/-- The fixed `ticket_keywords` list of `detect_ticket_intent`. -/
def ticketKeywords : List String :=
  ["problema", "error", "falla", "ticket", "ayuda", "soporte", "no funciona",
   "issue", "bug", "help", "support", "not working", "broken", "doesn't work"]

/-- Keyword scan of `detect_ticket_intent` over an already-lowercased
message (`for keyword in ticket_keywords: if keyword in message_lower`). -/
def detectLower (messageLower : String) : Bool :=
  ticketKeywords.any (fun kw => containsSub messageLower.data kw.data)

/-- Python `str.lower()` (character-wise, as the source applies it to
its Spanish/English keyword matching). -/
def pyLower (s : String) : String := String.mk (s.data.map Char.toLower)

/-- `detect_ticket_intent`: case-insensitive substring match against the
fixed keyword list. -/
def detectTicketIntent (message : String) : Bool :=
  detectLower (pyLower message)

/-! ## `process_text_for_whatsapp`: the four `re.sub` passes -/

/-- For `re.sub(r"\【.*?\】", ...)`: characters up to the first `】`
(`.` does not cross a newline); `some rest` is the suffix after it. -/
def findClose : List Char → Option (List Char)
  | [] => none
  | c :: t => if c = '】' then some t else if c = '\n' then none else findClose t

/-- Remove every `【...】` segment, scanning left to right (fuelled by the
input length; each step consumes at least one character). -/
def stripBrackets : Nat → List Char → List Char
  | 0, l => l
  | _ + 1, [] => []
  | f + 1, c :: t =>
      if c = '【' then
        match findClose t with
        | some rest => stripBrackets f rest
        | none => c :: stripBrackets f t
      else c :: stripBrackets f t

/-- For `\*\*(.*?)\*\*`: the (non-greedy) group up to the first `**`,
with the suffix after it; `.` does not cross a newline. -/
def findBoldClose : List Char → Option (List Char × List Char)
  | [] => none
  | '*' :: '*' :: t => some ([], t)
  | c :: t =>
      if c = '\n' then none
      else (findBoldClose t).map (fun p => (c :: p.1, p.2))

/-- `re.sub(r"\*\*(.*?)\*\*", r"*\1*", _)`: markdown bold to WhatsApp
bold; on a dangling `**` the scan advances a single position, as the
regex engine does. -/
def mdBoldSub : Nat → List Char → List Char
  | 0, l => l
  | _ + 1, [] => []
  | f + 1, c :: t =>
      if c = '*' then
        match t with
        | '*' :: t2 =>
            match findBoldClose t2 with
            | some (inner, rest) => '*' :: (inner ++ '*' :: mdBoldSub f rest)
            | none => '*' :: mdBoldSub f ('*' :: t2)
        | _ => c :: mdBoldSub f t
      else c :: mdBoldSub f t

/-- Characters up to the first `target` (not crossing a newline), plus
the suffix after it. -/
def findChar (target : Char) : List Char → Option (List Char × List Char)
  | [] => none
  | c :: t =>
      if c = target then some ([], t)
      else if c = '\n' then none
      else (findChar target t).map (fun p => (c :: p.1, p.2))

/-- For `\[(.*?)\]\((.*?)\)` applied after a `[`: the link text, the
URL, and the suffix after the closing parenthesis.  The first group
backtracks past a `]` that is not followed by a parenthesised URL. -/
def linkMatch : List Char → Option (List Char × List Char × List Char)
  | [] => none
  | c :: t =>
      let deeper : Option (List Char × List Char × List Char) :=
        if c = '\n' then none
        else (linkMatch t).map (fun p => (c :: p.1, p.2.1, p.2.2))
      if c = ']' then
        match t with
        | '(' :: t2 =>
            match findChar ')' t2 with
            | some (url, rest) => some ([], url, rest)
            | none => deeper
        | _ => deeper
      else deeper

/-- `re.sub(r"\[(.*?)\]\((.*?)\)", r"\1: \2", _)`: markdown links to
`text: url`. -/
def linkSub : Nat → List Char → List Char
  | 0, l => l
  | _ + 1, [] => []
  | f + 1, c :: t =>
      if c = '[' then
        match linkMatch t with
        | some (txt, url, rest) => txt ++ ':' :: ' ' :: (url ++ linkSub f rest)
        | none => c :: linkSub f t
      else c :: linkSub f t

/-- Python `str.strip()` on the default whitespace set. -/
def pyStrip (l : List Char) : List Char :=
  ((l.dropWhile Char.isWhitespace).reverse.dropWhile Char.isWhitespace).reverse

/-- Is `c` in `[\x00-\x1F\x7F]`? -/
def isControlChar (c : Char) : Bool := c.toNat < 32 || c.toNat = 127

/-- `process_text_for_whatsapp`: strip `【...】` segments (then `strip()`),
convert markdown bold and links, and drop control characters.  An empty
(falsy) input short-circuits to `""`. -/
def processTextForWhatsapp (text : String) : String :=
  if text = "" then ""
  else
    let l1 := pyStrip (stripBrackets text.data.length text.data)
    let l2 := mdBoldSub l1.length l1
    let l3 := linkSub l2.length l2
    String.mk (l3.filter (fun c => !isControlChar c))

/-! ## The message router `process_whatsapp_message` (text messages) -/

/-- Reply to `/restart` / `/reiniciar`. -/
def restartResponse : String := "He reiniciado nuestra conversación. ¿En qué puedo ayudarte?"

/-- Welcome reply for a greeting in state `INITIAL`. -/
def welcomeResponse (name : String) : String :=
  "¡Hola " ++ name ++ "! Bienvenido. ¿En qué puedo ayudarte hoy?"

/-- Reply recorded after the ticket subject was captured. -/
def askDescriptionResponse : String := "Gracias. Por favor describe el problema en detalle."

/-- Reply after the ticket description completes the ticket. -/
def ticketCreatedResponse : String :=
  "¡Gracias! Tu ticket ha sido creado. Un agente de soporte te contactará pronto."

/-- Reply asking for a ticket subject when support intent is detected. -/
def askSubjectResponse : String :=
  "Parece que necesitas ayuda con un problema. ¿Podrías proporcionar un breve título o asunto para tu ticket de soporte?"

/-- The text-message path of `process_whatsapp_message`.  `ai` abstracts
the assistant port called in the fallback branch (the source's
`generate_response(message_body, wa_id, name)` call).  Returns the
updated store and the notifier calls made. -/
def processWhatsappText (ai : String → String → String → String) (now : Int)
    (st : Store) (waId name body : String) : Store × List Msg :=
  let got := getSession now waId st
  let st1 := got.1
  let session := got.2
  let st2 := addMessageToHistory now waId "user" body st1
  if pyLower body = "/restart" ∨ pyLower body = "/reiniciar" then
    let st3 := restartSession now waId st2
    (addMessageToHistory now waId "assistant" restartResponse st3, [(waId, restartResponse)])
  else
    let branch : Store × String :=
      if session.state = "INITIAL" ∧
          (pyLower body = "hola" ∨ pyLower body = "hi" ∨ pyLower body = "hello") then
        (updateSession now waId { state := some "AWAITING_QUERY" } st2, welcomeResponse name)
      else if session.state = "TICKET_CREATION" then
        match alookup session.context "ticket_subject" with
        | none =>
            (updateSession now waId
               { context := some (aset session.context "ticket_subject" body) } st2,
             askDescriptionResponse)
        | some _ =>
            (updateSession now waId { state := some "AWAITING_QUERY", context := some [] } st2,
             ticketCreatedResponse)
      else if detectTicketIntent body ∧ session.state ≠ "TICKET_CREATION" then
        (updateSession now waId { state := some "TICKET_CREATION", context := some [] } st2,
         askSubjectResponse)
      else
        (st2, ai body waId name)
    let resp := processTextForWhatsapp branch.2
    (addMessageToHistory now waId "assistant" resp branch.1, [(waId, resp)])

/-! ## Webhook subscription verification (`verify_webhook`) -/

/-- Python truthiness of an optional query parameter / env string. -/
def pyTruthy (o : Option String) : Bool :=
  match o with
  | none => false
  | some s => s ≠ ""

/-- `verify_webhook`: `envToken` is `WHATSAPP_VERIFY_TOKEN` from the
environment; `mode`, `token`, `challenge` are the `hub.*` query
parameters (`none` when absent).  Returns the response body and HTTP
status. -/
def verifyWebhook (envToken mode token challenge : Option String) : Option String × Nat :=
  if pyTruthy mode && pyTruthy token then
    if mode = some "subscribe" ∧ token = envToken then (challenge, 200)
    else (some "Forbidden", 403)
  else (some "Bad Request", 400)

/-! ## Assistant polling (`generate_assistant_response`) -/

/-- One content block of an assistant message. -/
structure AContent where
  ctype : String
  textValue : String

/-- One message in the thread listing. -/
structure AMsg where
  role : String
  content : List AContent

/-- Apology returned when the run ends failed/cancelled/expired. -/
def runFailedApology : String := "Lo siento, hubo un problema al procesar tu mensaje."

/-- Apology returned when polling exhausts the wall-clock timeout. -/
def timeoutApology : String := "Lo siento, la respuesta está tomando demasiado tiempo."

/-- Fallback when no assistant text block is found. -/
def noTextAnswer : String := "No se encontró una respuesta de texto."

/-- First `text`-type content block of a message. -/
def firstTextBlock : List AContent → Option String
  | [] => none
  | c :: t => if c.ctype = "text" then some c.textValue else firstTextBlock t

/-- The completed-run extraction loop: first assistant-authored text
block over `messages.data`. -/
def extractAnswer : List AMsg → String
  | [] => noTextAnswer
  | m :: t =>
      if m.role = "assistant" then
        match firstTextBlock m.content with
        | some v => v
        | none => extractAnswer t
      else extractAnswer t

/-- The polling loop of `generate_assistant_response`: `status k` is the
run status observed by the `k`-th `runs.retrieve`, one per elapsed
second (each iteration sleeps 1s); `max_wait_time = 60`. -/
def waitForRun (status : Nat → String) (msgs : List AMsg) (k : Nat) : String :=
  if k < 60 then
    if status k = "completed" then extractAnswer msgs
    else if status k = "failed" ∨ status k = "cancelled" ∨ status k = "expired" then
      runFailedApology
    else waitForRun status msgs (k + 1)
  else timeoutApology
termination_by 60 - k
decreasing_by omega

/-- `generate_assistant_response` after thread creation: a missing
`ASSISTANT_ID` short-circuits; otherwise the routine polls.  The
function is total — the source catches every exception, so no exception
reaches the caller. -/
def generateAssistantResponse (assistantId : Option String) (status : Nat → String)
    (msgs : List AMsg) : String :=
  match assistantId with
  | none => "Error: No se ha configurado un asistente. Contacta al administrador."
  | some _ => waitForRun status msgs 0

/-! ## Snapshot persistence (`save_sessions` / `load_sessions`) -/

/-- A session record as written to the JSON snapshot: timestamps are
`isoformat()` strings; the `Option` wrappers on the flags and `meta`
model keys that may be absent in older snapshot files. -/
structure SerSession where
  created_at : String
  last_activity : String
  state : String
  context : List (String × String)
  thread_id : Option String
  message_history : List HistEntry
  inactivity_warning_sent : Option Bool
  closing_notice_sent : Option Bool
  meta : Option Meta
deriving DecidableEq

/-- The per-session serialization in `save_sessions`: copy the dict and
render both datetimes with `isoformat()` (every key is written). -/
def serializeSession (s : Session) : SerSession :=
  { created_at := isoOf s.created_at
    last_activity := isoOf s.last_activity
    state := s.state
    context := s.context
    thread_id := s.thread_id
    message_history := s.message_history
    inactivity_warning_sent := some s.inactivity_warning_sent
    closing_notice_sent := some s.closing_notice_sent
    meta := some s.meta }

/-- `save_sessions`: the serializable mapping written to the file. -/
def saveSessions (st : Store) : List (String × SerSession) :=
  st.map (fun p => (p.1, serializeSession p.2))

/-- The defaulting half of `load_sessions`: parsed timestamps replace
the strings; absent flags default to `false`; an absent `meta` defaults
to the history length and zero restarts. -/
def deserializeSession (c l : Int) (ser : SerSession) : Session :=
  { created_at := c
    last_activity := l
    state := ser.state
    context := ser.context
    thread_id := ser.thread_id
    message_history := ser.message_history
    inactivity_warning_sent := ser.inactivity_warning_sent.getD false
    closing_notice_sent := ser.closing_notice_sent.getD false
    meta := ser.meta.getD
      { total_messages := ser.message_history.length, session_restarts := 0 } }

/-- `load_sessions`: merge each loaded record into the store in file
order.  A timestamp `fromisoformat` failure raises, aborting the loop —
records already merged stay merged, the rest are dropped (the
enclosing `except` only logs). -/
def loadSessions : List (String × SerSession) → Store → Store
  | [], st => st
  | (u, ser) :: rest, st =>
      match isoParse ser.created_at, isoParse ser.last_activity with
      | some c, some l => loadSessions rest (aset st u (deserializeSession c l ser))
      | _, _ => st

/-! ## Operation traces over the store (for the message-count invariant) -/

/-- One public store operation from a request-handling context:
`get_session`, `update_session` or `add_message_to_history`, each
stamped with the wall-clock time at which it runs. -/
inductive StoreOp
  | opGet (u : String) (t : Int)
  | opUpdate (u : String) (t : Int) (upd : SessionUpdate)
  | opAppend (u : String) (t : Int) (role content : String)

/-- Interpret one operation on the store. -/
def runOp (st : Store) : StoreOp → Store
  | .opGet u t => (getSession t u st).1
  | .opUpdate u t upd => updateSession t u upd st
  | .opAppend u t role content => addMessageToHistory t u role content st

/-- Interpret a sequence of operations. -/
def runOps (ops : List StoreOp) (st : Store) : Store :=
  ops.foldl runOp st

/-- Number of `add_message_to_history` calls for user `u` in a trace. -/
def appendCount (u : String) : List StoreOp → Nat
  | [] => 0
  | .opAppend v _ _ _ :: t => (if v = u then 1 else 0) + appendCount u t
  | _ :: t => appendCount u t

/-! ## Association-list lemmas -/

theorem alookup_aset_self {α : Type} (st : List (String × α)) (u : String) (s : α) :
    alookup (aset st u s) u = some s := by
  induction st with
  | nil => simp [aset, alookup]
  | cons h t ih =>
      obtain ⟨k, v⟩ := h
      by_cases hk : k = u <;> simp [aset, alookup, hk, ih]

theorem alookup_aset_ne {α : Type} (st : List (String × α)) (u v : String) (s : α)
    (h : v ≠ u) : alookup (aset st u s) v = alookup st v := by
  have h' : u ≠ v := Ne.symm h
  induction st with
  | nil => simp [aset, alookup, h']
  | cons p t ih =>
      obtain ⟨k, w⟩ := p
      by_cases hk : k = u
      · subst hk
        simp [aset, alookup, h']
      · simp [aset, alookup, hk, ih]

theorem alookup_aerase_ne {α : Type} (st : List (String × α)) (u v : String)
    (h : v ≠ u) : alookup (aerase st u) v = alookup st v := by
  have h' : u ≠ v := Ne.symm h
  induction st with
  | nil => simp [aerase]
  | cons p t ih =>
      obtain ⟨k, w⟩ := p
      by_cases hk : k = u
      · subst hk
        simp [aerase, alookup, h']
      · simp [aerase, alookup, hk, ih]

theorem alookup_eq_none_of_not_mem_keys {α : Type} (st : List (String × α)) (u : String)
    (h : u ∉ keys st) : alookup st u = none := by
  induction st with
  | nil => simp [alookup]
  | cons p t ih =>
      obtain ⟨k, w⟩ := p
      simp only [keys, List.map_cons, List.mem_cons] at h
      push_neg at h
      have hk : k ≠ u := Ne.symm h.1
      simp [alookup, hk, ih (by simpa [keys] using h.2)]

theorem alookup_aerase_self {α : Type} (st : List (String × α)) (u : String)
    (h : NodupKeys st) : alookup (aerase st u) u = none := by
  induction st with
  | nil => simp [aerase, alookup]
  | cons p t ih =>
      obtain ⟨k, w⟩ := p
      simp only [NodupKeys, keys, List.map_cons, List.nodup_cons] at h
      by_cases hk : k = u
      · subst hk
        simp only [aerase, if_pos rfl]
        exact alookup_eq_none_of_not_mem_keys t k (by simpa [keys] using h.1)
      · simp [aerase, alookup, hk, ih (by simpa [NodupKeys, keys] using h.2)]

theorem keys_aset_of_mem {α : Type} (st : List (String × α)) (u : String) (s : α)
    (h : u ∈ keys st) : keys (aset st u s) = keys st := by
  induction st with
  | nil => simp [keys] at h
  | cons p t ih =>
      obtain ⟨k, w⟩ := p
      by_cases hk : k = u
      · simp [aset, keys, hk]
      · simp only [keys, List.map_cons, List.mem_cons] at h
        rcases h with h | h
        · exact absurd h.symm hk
        · have ih' := ih (by simpa [keys] using h)
          simp only [aset, if_neg hk, keys, List.map_cons]
          simp only [keys] at ih'
          rw [ih']

theorem keys_aset_of_not_mem {α : Type} (st : List (String × α)) (u : String) (s : α)
    (h : u ∉ keys st) : keys (aset st u s) = keys st ++ [u] := by
  induction st with
  | nil => simp [aset, keys]
  | cons p t ih =>
      obtain ⟨k, w⟩ := p
      simp only [keys, List.map_cons, List.mem_cons] at h
      push_neg at h
      have hk : k ≠ u := Ne.symm h.1
      have ih' := ih (by simpa [keys] using h.2)
      simp only [aset, if_neg hk, keys, List.map_cons]
      simp only [keys] at ih'
      rw [ih']
      simp

theorem nodupKeys_aset {α : Type} (st : List (String × α)) (u : String) (s : α)
    (h : NodupKeys st) : NodupKeys (aset st u s) := by
  by_cases hm : u ∈ keys st
  · unfold NodupKeys
    rw [keys_aset_of_mem st u s hm]
    exact h
  · unfold NodupKeys
    rw [keys_aset_of_not_mem st u s hm]
    simpa [List.nodup_append] using ⟨h, fun hh => hm hh⟩

theorem keys_aerase_sublist {α : Type} (st : List (String × α)) (u : String) :
    (keys (aerase st u)).Sublist (keys st) := by
  induction st with
  | nil => simp [aerase]
  | cons p t ih =>
      obtain ⟨k, w⟩ := p
      by_cases hk : k = u
      · simp only [aerase, hk, if_pos rfl]
        exact (List.sublist_cons_self _ _)
      · simpa [aerase, keys, hk] using ih

theorem nodupKeys_aerase {α : Type} (st : List (String × α)) (u : String)
    (h : NodupKeys st) : NodupKeys (aerase st u) :=
  List.Nodup.sublist (keys_aerase_sublist st u) h

theorem aset_eq_self {α : Type} (st : List (String × α)) (u : String) (s : α)
    (h : alookup st u = some s) : aset st u s = st := by
  induction st with
  | nil => simp [alookup] at h
  | cons p t ih =>
      obtain ⟨k, w⟩ := p
      by_cases hk : k = u
      · subst hk
        have h' : w = s := by simpa [alookup] using h
        subst h'
        simp [aset]
      · simp only [alookup, if_neg hk] at h
        simp [aset, hk, ih h]


theorem alookup_of_mem_nodup {α : Type} (st : List (String × α)) (u : String) (s : α)
    (hn : NodupKeys st) (h : (u, s) ∈ st) : alookup st u = some s := by
  induction st with
  | nil => simp at h
  | cons p t ih =>
      obtain ⟨k, w⟩ := p
      simp only [NodupKeys, keys, List.map_cons, List.nodup_cons] at hn
      rcases List.mem_cons.mp h with h | h
      · have h1 : u = k := congrArg Prod.fst h
        have h2 : s = w := congrArg Prod.snd h
        subst h1
        subst h2
        simp [alookup]
      · have hk : k ≠ u := by
          intro hk
          subst hk
          exact hn.1 (by simpa [keys] using List.mem_map_of_mem Prod.fst h)
        simp [alookup, hk, ih (by simpa [NodupKeys, keys] using hn.2) h]

/-! ## Round trip of the timestamp codec -/

theorem digitChar_toNat (r : Nat) (h : r < 10) : (Char.ofNat (48 + r)).toNat = 48 + r := by
  interval_cases r <;> decide

theorem isDigitChar_digitChar (r : Nat) (h : r < 10) :
    isDigitChar (Char.ofNat (48 + r)) = true := by
  interval_cases r <;> decide

theorem digitVal_digitChar (r : Nat) (h : r < 10) : digitVal (Char.ofNat (48 + r)) = r := by
  interval_cases r <;> decide

theorem parseNatFrom_nil (a : Nat) : parseNatFrom a [] = a := rfl

theorem parseNatFrom_cons (a : Nat) (c : Char) (t : List Char) :
    parseNatFrom a (c :: t) = parseNatFrom (a * 10 + digitVal c) t := rfl

theorem parseNatFrom_append (a : Nat) (l1 l2 : List Char) :
    parseNatFrom a (l1 ++ l2) = parseNatFrom (parseNatFrom a l1) l2 := by
  induction l1 generalizing a with
  | nil => rfl
  | cons c t ih => rw [List.cons_append, parseNatFrom_cons, parseNatFrom_cons, ih]

theorem natChars_spec (n : Nat) :
    ∀ a, parseNatFrom a (natChars n) = a * 10 ^ (natChars n).length + n := by
  induction n using Nat.strong_induction_on with
  | _ n ih =>
      intro a
      match n with
      | 0 => simp [natChars, parseNatFrom_nil]
      | m + 1 =>
          rw [natChars]
          have hlt : (m + 1) / 10 < m + 1 := Nat.div_lt_self (Nat.succ_pos m) (by norm_num)
          rw [parseNatFrom_append, ih _ hlt a, parseNatFrom_cons, parseNatFrom_nil,
              digitVal_digitChar _ (Nat.mod_lt _ (by norm_num))]
          have hlen : (natChars ((m + 1) / 10) ++ [Char.ofNat (48 + (m + 1) % 10)]).length
              = (natChars ((m + 1) / 10)).length + 1 := by simp
          rw [hlen, pow_succ, ← Nat.mul_assoc, Nat.add_mul, Nat.add_assoc]
          have hdm : (m + 1) / 10 * 10 + (m + 1) % 10 = m + 1 := by omega
          rw [hdm]

theorem natChars_all_digits (n : Nat) : (natChars n).all isDigitChar = true := by
  induction n using Nat.strong_induction_on with
  | _ n ih =>
      match n with
      | 0 => simp [natChars]
      | m + 1 =>
          rw [natChars]
          have hlt : (m + 1) / 10 < m + 1 := Nat.div_lt_self (Nat.succ_pos m) (by norm_num)
          simp only [List.all_append, List.all_cons, List.all_nil, Bool.and_true,
            Bool.and_eq_true]
          exact ⟨ih _ hlt, isDigitChar_digitChar _ (Nat.mod_lt _ (by norm_num))⟩

theorem natDigits_all_digits (n : Nat) : (natDigits n).all isDigitChar = true := by
  by_cases h : n = 0
  · subst h
    decide
  · simp [natDigits, h, natChars_all_digits]

theorem natDigits_ne_nil (n : Nat) : natDigits n ≠ [] := by
  by_cases h : n = 0
  · simp [natDigits, h]
  · obtain ⟨m, rfl⟩ := Nat.exists_eq_succ_of_ne_zero h
    rw [natDigits, if_neg (Nat.succ_ne_zero m), natChars]
    simp

theorem parseNatFrom_natDigits (n : Nat) : parseNatFrom 0 (natDigits n) = n := by
  by_cases h : n = 0
  · subst h
    decide
  · rw [natDigits, if_neg h]
    simpa using natChars_spec n 0

theorem natDigits_head_digit (n : Nat) :
    ∃ c cs, natDigits n = c :: cs ∧ isDigitChar c = true := by
  have hall := natDigits_all_digits n
  have hne := natDigits_ne_nil n
  match hd : natDigits n with
  | [] => exact absurd hd hne
  | c :: cs =>
      refine ⟨c, cs, rfl, ?_⟩
      rw [hd] at hall
      simp only [List.all_cons, Bool.and_eq_true] at hall
      exact hall.1

theorem isoParseChars_minus (c : Char) (cs : List Char)
    (hall : (c :: cs).all isDigitChar = true) :
    isoParseChars ('-' :: c :: cs) = some (-((parseNatFrom 0 (c :: cs) : Nat) : Int)) := by
  simp [isoParseChars, hall]

theorem isoParseChars_digits (c : Char) (cs : List Char) (hdig : isDigitChar c = true)
    (hall : (c :: cs).all isDigitChar = true) :
    isoParseChars (c :: cs) = some (((parseNatFrom 0 (c :: cs) : Nat) : Int)) := by
  have hne : c ≠ '-' := by
    intro hc
    subst hc
    exact absurd hdig (by decide)
  simp [isoParseChars, hne, hall]

theorem isoParse_isoOf (t : Int) : isoParse (isoOf t) = some t := by
  obtain ⟨c0, cs0, hd, hdig⟩ := natDigits_head_digit t.natAbs
  by_cases h : t < 0
  · rw [isoOf, if_pos h]
    show isoParseChars ('-' :: natDigits t.natAbs) = some t
    rw [hd, isoParseChars_minus c0 cs0 (hd ▸ natDigits_all_digits t.natAbs), ← hd,
      parseNatFrom_natDigits]
    congr 1
    omega
  · rw [isoOf, if_neg h]
    show isoParseChars (natDigits t.natAbs) = some t
    rw [hd, isoParseChars_digits c0 cs0 hdig (hd ▸ natDigits_all_digits t.natAbs), ← hd,
      parseNatFrom_natDigits, Option.some_inj]
    omega

/-! ## Persistence round trip -/

theorem deserialize_serialize (s : Session) :
    deserializeSession s.created_at s.last_activity (serializeSession s) = s := rfl

theorem loadSessions_saveSessions_aux (l : List (String × Session)) :
    ∀ st : Store, (∀ p ∈ l, alookup st p.1 = some p.2) →
      loadSessions (saveSessions l) st = st := by
  induction l with
  | nil => intro st _; rfl
  | cons p t ih =>
      intro st h
      obtain ⟨u, s⟩ := p
      show loadSessions ((u, serializeSession s) :: saveSessions t) st = st
      rw [loadSessions]
      have hc : isoParse (serializeSession s).created_at = some s.created_at :=
        isoParse_isoOf s.created_at
      have hl : isoParse (serializeSession s).last_activity = some s.last_activity :=
        isoParse_isoOf s.last_activity
      rw [hc, hl]
      show loadSessions (saveSessions t)
        (aset st u (deserializeSession s.created_at s.last_activity (serializeSession s))) = st
      rw [deserialize_serialize, aset_eq_self st u s (h (u, s) (by simp))]
      exact ih st (fun q hq => h q (by simp [hq]))

/-! ## Effect of the public operations on a single user's session -/

theorem applyUpdate_meta (upd : SessionUpdate) (s : Session) :
    (applyUpdate upd s).meta = s.meta := by
  obtain ⟨os, oc, ot⟩ := upd
  cases os <;> cases oc <;> cases ot <;> rfl

theorem applyUpdate_history (upd : SessionUpdate) (s : Session) :
    (applyUpdate upd s).message_history = s.message_history := by
  obtain ⟨os, oc, ot⟩ := upd
  cases os <;> cases oc <;> cases ot <;> rfl

theorem alookup_runOp (st : Store) (u : String) (s : Session)
    (h : alookup st u = some s) (op : StoreOp) :
    ∃ s', alookup (runOp st op) u = some s' ∧
      s'.meta.total_messages = s.meta.total_messages + appendCount u [op] ∧
      s'.meta.session_restarts = s.meta.session_restarts := by
  cases op with
  | opGet v tm =>
      by_cases hv : v = u
      · subst hv
        simp only [runOp, getSession, h]
        exact ⟨_, alookup_aset_self st v _, by simp [appendCount], rfl⟩
      · rcases hvl : alookup st v with _ | sv <;>
          · simp only [runOp, getSession, hvl]
            rw [alookup_aset_ne st v u _ (fun hh => hv hh.symm)]
            exact ⟨s, h, by simp [appendCount], rfl⟩
  | opUpdate v tm upd =>
      by_cases hv : v = u
      · subst hv
        simp only [runOp, updateSession, h]
        exact ⟨_, alookup_aset_self st v _,
          by simp [appendCount, applyUpdate_meta], by simp [applyUpdate_meta]⟩
      · rcases hvl : alookup st v with _ | sv
        · simp only [runOp, updateSession, hvl]
          exact ⟨s, h, by simp [appendCount], rfl⟩
        · simp only [runOp, updateSession, hvl]
          rw [alookup_aset_ne st v u _ (fun hh => hv hh.symm)]
          exact ⟨s, h, by simp [appendCount], rfl⟩
  | opAppend v tm role content =>
      by_cases hv : v = u
      · subst hv
        simp only [runOp, addMessageToHistory, h]
        exact ⟨_, alookup_aset_self st v _, by simp [appendCount], rfl⟩
      · rcases hvl : alookup st v with _ | sv
        · simp only [runOp, addMessageToHistory, hvl]
          exact ⟨s, h, by simp [appendCount, hv], rfl⟩
        · simp only [runOp, addMessageToHistory, hvl]
          rw [alookup_aset_ne st v u _ (fun hh => hv hh.symm)]
          exact ⟨s, h, by simp [appendCount, hv], rfl⟩

theorem appendCount_cons (u : String) (op : StoreOp) (ops : List StoreOp) :
    appendCount u (op :: ops) = appendCount u [op] + appendCount u ops := by
  cases op <;> simp [appendCount]

theorem alookup_runOps (u : String) (ops : List StoreOp) :
    ∀ (st : Store) (s : Session), alookup st u = some s →
      ∃ s', alookup (runOps ops st) u = some s' ∧
        s'.meta.total_messages = s.meta.total_messages + appendCount u ops ∧
        s'.meta.session_restarts = s.meta.session_restarts := by
  induction ops with
  | nil => exact fun st s h => ⟨s, h, by simp [appendCount], rfl⟩
  | cons op rest ih =>
      intro st s h
      obtain ⟨s1, h1, hm1, hr1⟩ := alookup_runOp st u s h op
      obtain ⟨s2, h2, hm2, hr2⟩ := ih (runOp st op) s1 h1
      refine ⟨s2, h2, ?_, by rw [hr2, hr1]⟩
      have hc := appendCount_cons u op rest
      omega

/-! ## Demo data for concrete witnesses -/

/-- A concrete history entry. -/
def demoEntry : HistEntry :=
  { role := "user", content := "hola mundo", timestamp := isoOf 0, msgType := none }

/-- A concrete session holding one history entry. -/
def demoSession : Session :=
  { freshSession 0 with
      message_history := [demoEntry]
      meta := { total_messages := 1, session_restarts := 0 } }

/-- A one-user concrete store. -/
def demoStore : Store := [("u1", demoSession)]

/-! ## Claim C3 -/

/-- **C3**: for every user whose session exists, `restart_session`
replaces the session with one whose `meta.total_messages` equals the old
session's, whose `meta.session_restarts` is the old value plus exactly
one, whose `context` is empty, and whose `state` is `INITIAL`. -/
theorem restart_session_spec (now : Int) (u : String) (st : Store) (s : Session)
    (h : alookup st u = some s) :
    ∃ s', alookup (restartSession now u st) u = some s' ∧
      s'.meta.total_messages = s.meta.total_messages ∧
      s'.meta.session_restarts = s.meta.session_restarts + 1 ∧
      s'.context = [] ∧ s'.state = "INITIAL" := by
  simp only [restartSession, h]
  exact ⟨_, alookup_aset_self st u _, rfl, rfl, rfl, rfl⟩

/-- Witness for C3 at a concrete store. -/
theorem restart_session_spec_witness :
    alookup demoStore "u1" = some demoSession ∧
    ∃ s', alookup (restartSession 5 "u1" demoStore) "u1" = some s' ∧
      s'.meta.total_messages = demoSession.meta.total_messages ∧
      s'.meta.session_restarts = demoSession.meta.session_restarts + 1 ∧
      s'.context = [] ∧ s'.state = "INITIAL" :=
  ⟨rfl, restart_session_spec 5 "u1" demoStore demoSession rfl⟩

/-! ## Claim C4 -/

/-- **C4**: restoring a snapshot of the store (`load_sessions` applied to
the output of `save_sessions`, merging into the same store) reproduces
the store exactly — in particular the same user set, and for each user
the same `state`, the same history length, and `created_at` /
`last_activity` surviving the `isoformat` serialize/parse round trip. -/
theorem snapshot_roundtrip (st : Store) (h : NodupKeys st) :
    loadSessions (saveSessions st) st = st :=
  loadSessions_saveSessions_aux st st
    (fun p hp => alookup_of_mem_nodup st p.1 p.2 h (by rw [Prod.mk.eta]; exact hp))

/-- Witness for C4 at a concrete store. -/
theorem snapshot_roundtrip_witness :
    NodupKeys demoStore ∧ loadSessions (saveSessions demoStore) demoStore = demoStore :=
  ⟨by simp [NodupKeys, keys, demoStore], snapshot_roundtrip demoStore
    (by simp [NodupKeys, keys, demoStore])⟩

/-! ## Claim C5 (corrected) -/

/-- **C5 counterexample**: with a session holding one history entry,
`get_message_history` at `limit = 0` returns the whole history (Python's
`lst[-0:]` is `lst[0:]`), not the empty sequence the claim demands for
"the last 0 entries". -/
theorem recent_history_zero_limit_counterexample :
    getMessageHistory "u1" 0 demoStore = [demoEntry] ∧
    getMessageHistory "u1" 0 demoStore ≠ [] := by
  constructor
  · rfl
  · intro hc
    simp [getMessageHistory, demoStore, demoSession, demoEntry, alookup, pySliceLast] at hc

/-- **C5 amended**: `get_message_history` returns the last `limit`
entries in insertion order for every positive `limit` (all entries when
the history is shorter), the **entire** history when `limit = 0`, and
the empty sequence when no session exists. -/
theorem recent_history_amended (st : Store) (u : String) (limit : Nat) :
    (alookup st u = none → getMessageHistory u limit st = []) ∧
    (∀ s, alookup st u = some s → 1 ≤ limit →
      getMessageHistory u limit st = (s.message_history.reverse.take limit).reverse) ∧
    (∀ s, alookup st u = some s → getMessageHistory u 0 st = s.message_history) := by
  refine ⟨fun h => by simp [getMessageHistory, h],
    fun s h hl => ?_,
    fun s h => by simp [getMessageHistory, h, pySliceLast]⟩
  simp only [getMessageHistory, h, pySliceLast]
  rw [if_neg (by omega)]
  have hid : (s.message_history.reverse.take limit).reverse
      = s.message_history.drop (s.message_history.length - limit) := by
    have := @List.reverse_take HistEntry s.message_history.reverse limit
    simpa using this
  exact hid.symm

/-- Witness for the amended C5 at a concrete store and limits. -/
theorem recent_history_amended_witness :
    (alookup demoStore "zz" = none → getMessageHistory "zz" 3 demoStore = []) ∧
    (∀ s, alookup demoStore "zz" = some s → 1 ≤ 3 →
      getMessageHistory "zz" 3 demoStore = (s.message_history.reverse.take 3).reverse) ∧
    (∀ s, alookup demoStore "zz" = some s → getMessageHistory "zz" 0 demoStore = s.message_history) :=
  recent_history_amended demoStore "zz" 3

/-! ## Claim C6 -/

/-- **C6**: over any sequence of `get_session` / `update_session` /
`add_message_to_history` calls, a session present at the start survives,
its `meta.total_messages` grows by exactly the number of
`add_message_to_history` calls for that user (each such call adds
exactly one; no other operation changes it), and no restart is
introduced. -/
theorem message_count_invariant (ops : List StoreOp) (st : Store) (u : String) (s : Session)
    (h : alookup st u = some s) :
    ∃ s', alookup (runOps ops st) u = some s' ∧
      s'.meta.total_messages = s.meta.total_messages + appendCount u ops ∧
      s'.meta.session_restarts = s.meta.session_restarts :=
  alookup_runOps u ops st s h

/-- Witness for C6 on a concrete three-operation trace. -/
theorem message_count_invariant_witness :
    alookup demoStore "u1" = some demoSession ∧
    ∃ s', alookup (runOps
        [StoreOp.opAppend "u1" 1 "user" "hola",
         StoreOp.opGet "otra" 2,
         StoreOp.opAppend "u1" 3 "assistant" "buenas"] demoStore) "u1" = some s' ∧
      s'.meta.total_messages = demoSession.meta.total_messages +
        appendCount "u1"
          [StoreOp.opAppend "u1" 1 "user" "hola",
           StoreOp.opGet "otra" 2,
           StoreOp.opAppend "u1" 3 "assistant" "buenas"] ∧
      s'.meta.session_restarts = demoSession.meta.session_restarts :=
  ⟨rfl, message_count_invariant _ demoStore "u1" demoSession rfl⟩

/-! ## Sweeper lemmas -/

/-- Two sessions agreeing on everything except possibly the history —
the frame respected by the sweeper's notice senders. -/
def SameCore (s s' : Session) : Prop :=
  s'.created_at = s.created_at ∧ s'.last_activity = s.last_activity ∧
  s'.state = s.state ∧ s'.context = s.context ∧ s'.thread_id = s.thread_id ∧
  s'.inactivity_warning_sent = s.inactivity_warning_sent ∧
  s'.closing_notice_sent = s.closing_notice_sent ∧ s'.meta = s.meta

theorem sameCore_refl (s : Session) : SameCore s s :=
  ⟨rfl, rfl, rfl, rfl, rfl, rfl, rfl, rfl⟩

theorem sameCore_trans {a b c : Session} (h1 : SameCore a b) (h2 : SameCore b c) :
    SameCore a c := by
  obtain ⟨x1, x2, x3, x4, x5, x6, x7, x8⟩ := h1
  obtain ⟨y1, y2, y3, y4, y5, y6, y7, y8⟩ := h2
  exact ⟨y1.trans x1, y2.trans x2, y3.trans x3, y4.trans x4, y5.trans x5,
    y6.trans x6, y7.trans x7, y8.trans x8⟩

theorem alookup_appendSystemEntry_self (now : Int) (c : String) (u : String) (st : Store)
    (s : Session) (h : alookup st u = some s) :
    alookup (appendSystemEntry now c u st) u =
      some { s with message_history := s.message_history ++ [systemEntry now c] } := by
  simp only [appendSystemEntry, h]
  exact alookup_aset_self st u _

theorem alookup_appendSystemEntry_ne (now : Int) (c : String) (v u : String) (st : Store)
    (h : u ≠ v) : alookup (appendSystemEntry now c v st) u = alookup st u := by
  rcases hv : alookup st v with _ | sv
  · simp [appendSystemEntry, hv]
  · simp only [appendSystemEntry, hv]
    exact alookup_aset_ne st v u _ h

theorem alookup_appendSystemEntry_core (now : Int) (c : String) (v u : String) (st : Store)
    (s : Session) (h : alookup st u = some s) :
    ∃ s', alookup (appendSystemEntry now c v st) u = some s' ∧ SameCore s s' := by
  by_cases hv : v = u
  · subst hv
    exact ⟨_, alookup_appendSystemEntry_self now c v st s h,
      ⟨rfl, rfl, rfl, rfl, rfl, rfl, rfl, rfl⟩⟩
  · rw [alookup_appendSystemEntry_ne now c v u st (fun hh => hv hh.symm)]
    exact ⟨s, h, sameCore_refl s⟩

theorem alookup_appendSystemEntry_none (now : Int) (c : String) (v u : String) (st : Store)
    (h : alookup st u = none) : alookup (appendSystemEntry now c v st) u = none := by
  by_cases hv : v = u
  · subst hv
    simp [appendSystemEntry, h]
  · rw [alookup_appendSystemEntry_ne now c v u st (fun hh => hv hh.symm)]
    exact h

theorem mem_keys_of_alookup {α : Type} (st : List (String × α)) (v : String) (sv : α)
    (h : alookup st v = some sv) : v ∈ keys st := by
  induction st with
  | nil => simp [alookup] at h
  | cons p t ih =>
      obtain ⟨k, w⟩ := p
      simp only [keys, List.map_cons, List.mem_cons]
      by_cases hk : k = v
      · exact Or.inl hk.symm
      · simp only [alookup, if_neg hk] at h
        exact Or.inr (by simpa [keys] using ih h)

theorem keys_appendSystemEntry (now : Int) (c : String) (v : String) (st : Store) :
    keys (appendSystemEntry now c v st) = keys st := by
  rcases hv : alookup st v with _ | sv
  · simp [appendSystemEntry, hv]
  · simp only [appendSystemEntry, hv]
    exact keys_aset_of_mem st v _ (mem_keys_of_alookup st v sv hv)

theorem alookup_aerase_none {α : Type} (st : List (String × α)) (v u : String)
    (h : alookup st u = none) : alookup (aerase st v) u = none := by
  induction st with
  | nil => simp [aerase, alookup]
  | cons p t ih =>
      obtain ⟨k, w⟩ := p
      by_cases hk : k = u
      · simp [alookup, hk] at h
      · by_cases hv : k = v
        · subst hv
          simp only [alookup, if_neg hk] at h
          simp [aerase, h]
        · simp only [alookup, if_neg hk] at h
          simp [aerase, alookup, hk, hv, ih h]

theorem mem_keys_aerase {α : Type} (st : List (String × α)) (v u : String)
    (h : u ∉ keys st) : u ∉ keys (aerase st v) :=
  fun hc => h ((keys_aerase_sublist st v).mem hc)

theorem sweepScan_fst_alookup (cfg : Config) (now : Int) (st : Store) (u : String) :
    alookup (sweepScan cfg now st).1 u =
      Option.map (fun s => (scanSession cfg now s).1) (alookup st u) := by
  induction st with
  | nil => simp [sweepScan, alookup]
  | cons p t ih =>
      obtain ⟨k, s⟩ := p
      by_cases hk : k = u <;> simp [sweepScan, alookup, hk, ih]

theorem keys_sweepScan (cfg : Config) (now : Int) (st : Store) :
    keys (sweepScan cfg now st).1 = keys st := by
  induction st with
  | nil => simp [sweepScan, keys]
  | cons p t ih =>
      obtain ⟨k, s⟩ := p
      simp only [sweepScan, keys, List.map_cons]
      simp only [keys] at ih
      rw [ih]

theorem sweepScan_warn_sub (cfg : Config) (now : Int) (st : Store) (v : String)
    (h : v ∈ (sweepScan cfg now st).2.1) : v ∈ keys st := by
  induction st with
  | nil => simp [sweepScan] at h
  | cons p t ih =>
      obtain ⟨k, s⟩ := p
      simp only [keys, List.map_cons, List.mem_cons]
      by_cases hb : (scanSession cfg now s).2.1
      · simp only [sweepScan, hb, if_pos] at h
        rcases List.mem_cons.mp h with h | h
        · exact Or.inl h
        · exact Or.inr (by simpa [keys] using ih h)
      · simp only [sweepScan, hb, if_neg] at h
        exact Or.inr (by simpa [keys] using ih (by simpa using h))

theorem sweepScan_close_sub (cfg : Config) (now : Int) (st : Store) (v : String)
    (h : v ∈ (sweepScan cfg now st).2.2) : v ∈ keys st := by
  induction st with
  | nil => simp [sweepScan] at h
  | cons p t ih =>
      obtain ⟨k, s⟩ := p
      simp only [keys, List.map_cons, List.mem_cons]
      by_cases hb : (scanSession cfg now s).2.2
      · simp only [sweepScan, hb, if_pos] at h
        rcases List.mem_cons.mp h with h | h
        · exact Or.inl h
        · exact Or.inr (by simpa [keys] using ih h)
      · simp only [sweepScan, hb, if_neg] at h
        exact Or.inr (by simpa [keys] using ih (by simpa using h))

theorem count_eq_zero_of_not_mem_sweep {l : List String} {v : String}
    (h : v ∉ l) : l.count v = 0 :=
  List.count_eq_zero.mpr h

theorem sweepScan_count (cfg : Config) (now : Int) (st : Store) (u : String) (s : Session)
    (hn : NodupKeys st) (h : alookup st u = some s) :
    (sweepScan cfg now st).2.1.count u = (if (scanSession cfg now s).2.1 then 1 else 0) ∧
    (sweepScan cfg now st).2.2.count u = (if (scanSession cfg now s).2.2 then 1 else 0) := by
  induction st with
  | nil => simp [alookup] at h
  | cons p t ih =>
      obtain ⟨k, sk⟩ := p
      simp only [NodupKeys, keys, List.map_cons, List.nodup_cons] at hn
      by_cases hk : k = u
      · subst hk
        have h' : sk = s := by simpa [alookup] using h
        subst h'
        have hnw : k ∉ (sweepScan cfg now t).2.1 :=
          fun hc => hn.1 (by simpa [keys] using sweepScan_warn_sub cfg now t k hc)
        have hnc : k ∉ (sweepScan cfg now t).2.2 :=
          fun hc => hn.1 (by simpa [keys] using sweepScan_close_sub cfg now t k hc)
        constructor
        · by_cases hb : (scanSession cfg now sk).2.1 <;>
            simp [sweepScan, hb, List.count_cons, count_eq_zero_of_not_mem_sweep hnw]
        · by_cases hb : (scanSession cfg now sk).2.2 <;>
            simp [sweepScan, hb, List.count_cons, count_eq_zero_of_not_mem_sweep hnc]
      · simp only [alookup, if_neg hk] at h
        obtain ⟨ih1, ih2⟩ := ih (by simpa [NodupKeys, keys] using hn.2) h
        constructor
        · by_cases hb : (scanSession cfg now sk).2.1 <;>
            simp [sweepScan, hb, List.count_cons, hk, ih1]
        · by_cases hb : (scanSession cfg now sk).2.2 <;>
            simp [sweepScan, hb, List.count_cons, hk, ih2]

/-! ## Counting notifier calls -/

theorem countMsg_nil (u text : String) : countMsg [] u text = 0 := rfl

theorem countMsg_append (m1 m2 : List Msg) (u text : String) :
    countMsg (m1 ++ m2) u text = countMsg m1 u text + countMsg m2 u text := by
  simp [countMsg, List.filter_append]

theorem countMsg_cons (p : Msg) (rest : List Msg) (u text : String) :
    countMsg (p :: rest) u text =
      (if p.1 = u ∧ p.2 = text then 1 else 0) + countMsg rest u text := by
  by_cases h : p.1 = u ∧ p.2 = text
  · simp [countMsg, List.filter_cons, h.1, h.2, h]
    omega
  · have hb : ¬(decide (p.1 = u) && decide (p.2 = text)) = true := by
      rcases not_and_or.mp h with h1 | h1 <;> simp [h1]
    simp [countMsg, List.filter_cons, hb, h]

theorem countMsg_map_const (vs : List String) (m : String) (u text : String) :
    countMsg (vs.map (fun v => ((v, m) : Msg))) u text =
      if text = m then vs.count u else 0 := by
  induction vs with
  | nil => simp [countMsg]
  | cons v rest ih =>
      simp only [List.map_cons, countMsg_cons, ih]
      by_cases htm : text = m
      · subst htm
        by_cases hv : v = u <;> simp [List.count_cons, hv] <;> omega
      · have hne : ¬(v = u ∧ m = text) := fun hc => htm hc.2.symm
        simp [htm, hne]

/-! ## Phase-2 lemmas: the warning and closing loops -/

theorem runWarnings_msgs (cfg : Config) (now : Int) (us : List String)
    (hn : cfg.notifierSet = true) :
    ∀ st : Store, (runWarnings cfg now us st).2 =
      us.map (fun v => ((v, warningMessage cfg) : Msg)) := by
  induction us with
  | nil => intro st; rfl
  | cons v rest ih =>
      intro st
      simp [runWarnings, sendInactivityWarning, hn, ih]

theorem runClosures_msgs (cfg : Config) (now : Int) (us : List String)
    (hn : cfg.notifierSet = true) :
    ∀ st : Store, (runClosures cfg now us st).2 =
      us.map (fun v => ((v, closingMessage) : Msg)) := by
  induction us with
  | nil => intro st; rfl
  | cons v rest ih =>
      intro st
      simp [runClosures, closeInactiveSession, hn, ih]

theorem runWarnings_lookup_not_mem (cfg : Config) (now : Int) (us : List String) (u : String)
    (h : u ∉ us) : ∀ st : Store,
      alookup (runWarnings cfg now us st).1 u = alookup st u := by
  induction us with
  | nil => intro st; rfl
  | cons v rest ih =>
      intro st
      have hv : u ≠ v := fun hh => h (by simp [hh])
      have hrest : u ∉ rest := fun hh => h (by simp [hh])
      show alookup (runWarnings cfg now rest (sendInactivityWarning cfg now st v).1).1 u = _
      rw [ih hrest]
      exact alookup_appendSystemEntry_ne now _ v u st hv

theorem runWarnings_core (cfg : Config) (now : Int) (us : List String) :
    ∀ (st : Store) (u : String) (s : Session), alookup st u = some s →
      ∃ s', alookup (runWarnings cfg now us st).1 u = some s' ∧ SameCore s s' := by
  induction us with
  | nil => exact fun st u s h => ⟨s, h, sameCore_refl s⟩
  | cons v rest ih =>
      intro st u s h
      obtain ⟨s1, h1, hc1⟩ := alookup_appendSystemEntry_core now (warningMessage cfg) v u st s h
      obtain ⟨s2, h2, hc2⟩ := ih _ u s1 h1
      exact ⟨s2, h2, sameCore_trans hc1 hc2⟩

theorem keys_runWarnings (cfg : Config) (now : Int) (us : List String) :
    ∀ st : Store, keys (runWarnings cfg now us st).1 = keys st := by
  induction us with
  | nil => intro st; rfl
  | cons v rest ih =>
      intro st
      show keys (runWarnings cfg now rest (sendInactivityWarning cfg now st v).1).1 = _
      rw [ih]
      exact keys_appendSystemEntry now _ v st

theorem nodupKeys_runWarnings (cfg : Config) (now : Int) (us : List String) (st : Store)
    (h : NodupKeys st) : NodupKeys (runWarnings cfg now us st).1 := by
  unfold NodupKeys
  rw [keys_runWarnings]
  exact h

theorem runClosures_lookup_none (cfg : Config) (now : Int) (us : List String) (u : String) :
    ∀ st : Store, alookup st u = none →
      alookup (runClosures cfg now us st).1 u = none := by
  induction us with
  | nil => exact fun st h => h
  | cons v rest ih =>
      intro st h
      show alookup (runClosures cfg now rest (closeInactiveSession cfg now st v).1).1 u = none
      exact ih _ (alookup_aerase_none _ v u (alookup_appendSystemEntry_none now _ v u st h))

theorem runClosures_lookup_not_mem (cfg : Config) (now : Int) (us : List String) (u : String)
    (h : u ∉ us) : ∀ st : Store,
      alookup (runClosures cfg now us st).1 u = alookup st u := by
  induction us with
  | nil => intro st; rfl
  | cons v rest ih =>
      intro st
      have hv : u ≠ v := fun hh => h (by simp [hh])
      have hrest : u ∉ rest := fun hh => h (by simp [hh])
      show alookup (runClosures cfg now rest
        (aerase (appendSystemEntry now closingMessage v st) v)).1 u = _
      rw [ih hrest]
      rw [alookup_aerase_ne _ v u hv]
      exact alookup_appendSystemEntry_ne now _ v u st hv

theorem nodupKeys_closeInactive (cfg : Config) (now : Int) (st : Store) (v : String)
    (h : NodupKeys st) : NodupKeys (closeInactiveSession cfg now st v).1 := by
  apply nodupKeys_aerase
  unfold NodupKeys
  rw [keys_appendSystemEntry]
  exact h

theorem nodupKeys_runClosures (cfg : Config) (now : Int) (us : List String) :
    ∀ st : Store, NodupKeys st → NodupKeys (runClosures cfg now us st).1 := by
  induction us with
  | nil => exact fun st h => h
  | cons v rest ih =>
      intro st h
      exact ih _ (nodupKeys_closeInactive cfg now st v h)

theorem keys_runClosures_not_mem (cfg : Config) (now : Int) (us : List String) (u : String) :
    ∀ st : Store, u ∉ keys st → u ∉ keys (runClosures cfg now us st).1 := by
  induction us with
  | nil => exact fun st h => h
  | cons v rest ih =>
      intro st h
      apply ih
      apply mem_keys_aerase
      rw [keys_appendSystemEntry]
      exact h

theorem runClosures_erases (cfg : Config) (now : Int) (us : List String) (u : String) :
    ∀ st : Store, NodupKeys st → us.count u = 1 →
      alookup (runClosures cfg now us st).1 u = none := by
  induction us with
  | nil => intro st _ hc; simp at hc
  | cons v rest ih =>
      intro st hn hc
      show alookup (runClosures cfg now rest (closeInactiveSession cfg now st v).1).1 u = none
      by_cases hv : v = u
      · subst hv
        apply runClosures_lookup_none
        apply alookup_aerase_self
        unfold NodupKeys
        rw [keys_appendSystemEntry]
        exact hn
      · have hrest : rest.count u = 1 := by
          simp only [List.count_cons] at hc
          have hbe : (v == u) = false := by
            simp [hv]
          rw [hbe] at hc
          simpa using hc
        exact ih _ (nodupKeys_closeInactive cfg now st v hn) hrest

/-! ## Scan-branch lemmas and absent-user invariants -/

theorem scanSession_close (cfg : Config) (now : Int) (s : Session)
    (h1 : (cfg.session_timeout : Int) ≤ now - s.last_activity)
    (h2 : s.closing_notice_sent = false) :
    scanSession cfg now s = ({ s with closing_notice_sent := true }, false, true) := by
  unfold scanSession
  rw [if_pos ⟨h1, h2⟩]

theorem scanSession_warn (cfg : Config) (now : Int) (s : Session)
    (h1 : now - s.last_activity < (cfg.session_timeout : Int))
    (h2 : (cfg.inactivity_warning : Int) ≤ now - s.last_activity)
    (h3 : s.inactivity_warning_sent = false) :
    scanSession cfg now s = ({ s with inactivity_warning_sent := true }, true, false) := by
  unfold scanSession
  rw [if_neg (fun hc => absurd hc.1 (not_le.mpr h1)), if_pos ⟨h2, h3⟩]

theorem scanSession_flag_true (cfg : Config) (now : Int) (s : Session)
    (hf : s.inactivity_warning_sent = true) :
    (scanSession cfg now s).2.1 = false ∧
    (scanSession cfg now s).1.inactivity_warning_sent = true := by
  simp only [scanSession]
  split_ifs with hcl hwn
  · exact ⟨rfl, hf⟩
  · exact absurd hwn.2 (by simp [hf])
  · exact ⟨rfl, hf⟩

theorem mem_keys_alookup_some {α : Type} (st : List (String × α)) (u : String)
    (h : u ∈ keys st) : ∃ s, alookup st u = some s := by
  induction st with
  | nil => simp [keys] at h
  | cons p t ih =>
      obtain ⟨k, w⟩ := p
      by_cases hk : k = u
      · exact ⟨w, by simp [alookup, hk]⟩
      · simp only [keys, List.map_cons, List.mem_cons] at h
        rcases h with h | h
        · exact absurd h.symm hk
        · obtain ⟨s, hs⟩ := ih (by simpa [keys] using h)
          exact ⟨s, by simp [alookup, hk, hs]⟩

theorem alookup_none_not_mem_keys {α : Type} (st : List (String × α)) (u : String)
    (h : alookup st u = none) : u ∉ keys st := by
  intro hc
  obtain ⟨s, hs⟩ := mem_keys_alookup_some st u hc
  rw [hs] at h
  exact Option.noConfusion h

theorem countMsg_zero_of_recipients (msgs : List Msg) (u text : String)
    (h : ∀ p ∈ msgs, p.1 ≠ u) : countMsg msgs u text = 0 := by
  induction msgs with
  | nil => rfl
  | cons p rest ih =>
      rw [countMsg_cons, ih (fun q hq => h q (by simp [hq]))]
      rw [if_neg (fun hc : p.1 = u ∧ p.2 = text => (h p (by simp)) hc.1)]

theorem runWarnings_recipients (cfg : Config) (now : Int) (us : List String) :
    ∀ (st : Store) (p : Msg), p ∈ (runWarnings cfg now us st).2 → p.1 ∈ us := by
  induction us with
  | nil => intro st p hp; simp [runWarnings] at hp
  | cons v rest ih =>
      intro st p hp
      show p.1 ∈ v :: rest
      have : p ∈ (sendInactivityWarning cfg now st v).2 ++
          (runWarnings cfg now rest (sendInactivityWarning cfg now st v).1).2 := hp
      rcases List.mem_append.mp this with h1 | h1
      · have : p = (v, warningMessage cfg) := by
          by_cases hn : cfg.notifierSet <;>
            simp [sendInactivityWarning, hn] at h1
          · exact h1
        simp [this]
      · exact List.mem_cons_of_mem v (ih _ p h1)

theorem runClosures_recipients (cfg : Config) (now : Int) (us : List String) :
    ∀ (st : Store) (p : Msg), p ∈ (runClosures cfg now us st).2 → p.1 ∈ us := by
  induction us with
  | nil => intro st p hp; simp [runClosures] at hp
  | cons v rest ih =>
      intro st p hp
      show p.1 ∈ v :: rest
      have : p ∈ (closeInactiveSession cfg now st v).2 ++
          (runClosures cfg now rest (closeInactiveSession cfg now st v).1).2 := hp
      rcases List.mem_append.mp this with h1 | h1
      · have : p = (v, closingMessage) := by
          by_cases hn : cfg.notifierSet <;>
            simp [closeInactiveSession, hn] at h1
          · exact h1
        simp [this]
      · exact List.mem_cons_of_mem v (ih _ p h1)

theorem sweepTick_absent (cfg : Config) (now : Int) (st : Store) (u : String)
    (hk : u ∉ keys st) :
    (∀ text, countMsg (sweepTick cfg now st).2 u text = 0) ∧
    u ∉ keys (sweepTick cfg now st).1 := by
  have hw : u ∉ (sweepScan cfg now st).2.1 :=
    fun hc => hk (sweepScan_warn_sub cfg now st u hc)
  have hc : u ∉ (sweepScan cfg now st).2.2 :=
    fun hc => hk (sweepScan_close_sub cfg now st u hc)
  constructor
  · intro text
    show countMsg (_ ++ _) u text = 0
    rw [countMsg_append]
    rw [countMsg_zero_of_recipients _ u text
      (fun p hp hpe => hw (hpe ▸ runWarnings_recipients cfg now _ _ p hp))]
    rw [countMsg_zero_of_recipients _ u text
      (fun p hp hpe => hc (hpe ▸ runClosures_recipients cfg now _ _ p hp))]
  · apply keys_runClosures_not_mem
    rw [keys_runWarnings, keys_sweepScan]
    exact hk

theorem iterTicks_absent (cfg : Config) (u : String) (ts : List Int) :
    ∀ st : Store, u ∉ keys st →
      (∀ text, countMsg (iterTicks cfg ts st).2 u text = 0) ∧
      u ∉ keys (iterTicks cfg ts st).1 := by
  induction ts with
  | nil => exact fun st h => ⟨fun text => rfl, h⟩
  | cons t rest ih =>
      intro st h
      obtain ⟨h1, h2⟩ := sweepTick_absent cfg t st u h
      obtain ⟨h3, h4⟩ := ih _ h2
      refine ⟨fun text => ?_, h4⟩
      show countMsg (_ ++ _) u text = 0
      rw [countMsg_append, h1 text, h3 text]

/-! ## Tick-level lemmas -/

theorem warningMessage_ne_closing (cfg : Config) : warningMessage cfg ≠ closingMessage := by
  intro h
  have hd := congrArg String.data h
  show False
  rw [warningMessage] at hd
  rw [String.data_append, String.data_append] at hd
  have h1 : "¿Sigues ahí? Tu sesión se cerrará por inactividad en ".data
      = '¿' :: "Sigues ahí? Tu sesión se cerrará por inactividad en ".data := rfl
  rw [h1] at hd
  simp [closingMessage] at hd

theorem runClosures_msgs_off (cfg : Config) (now : Int) (us : List String)
    (hn : cfg.notifierSet = false) :
    ∀ st : Store, (runClosures cfg now us st).2 = [] := by
  induction us with
  | nil => intro st; rfl
  | cons v rest ih =>
      intro st
      simp [runClosures, closeInactiveSession, hn, ih]

theorem getSession_existing (now : Int) (u : String) (st : Store) (s : Session)
    (h : alookup st u = some s) :
    (getSession now u st).1 =
      aset st u
        { s with
            last_activity := now
            inactivity_warning_sent := false
            closing_notice_sent := false } := by
  simp [getSession, h]

theorem tick_warn_once (cfg : Config) (now : Int) (st : Store) (u : String) (s : Session)
    (hnot : cfg.notifierSet = true) (hn : NodupKeys st) (h : alookup st u = some s)
    (hw1 : (cfg.inactivity_warning : Int) ≤ now - s.last_activity)
    (hw2 : now - s.last_activity < (cfg.session_timeout : Int))
    (hflag : s.inactivity_warning_sent = false) :
    countMsg (sweepTick cfg now st).2 u (warningMessage cfg) = 1 ∧
    (∃ s', alookup (sweepTick cfg now st).1 u = some s' ∧
      s'.inactivity_warning_sent = true ∧ s'.last_activity = s.last_activity ∧
      s'.closing_notice_sent = s.closing_notice_sent ∧ s'.meta = s.meta) ∧
    NodupKeys (sweepTick cfg now st).1 := by
  have hscan : scanSession cfg now s = ({ s with inactivity_warning_sent := true }, true, false) :=
    scanSession_warn cfg now s hw2 hw1 hflag
  obtain ⟨hcw, hcc⟩ := sweepScan_count cfg now st u s hn h
  rw [hscan] at hcw hcc
  simp only [if_pos, if_neg] at hcw hcc
  have hwc : (sweepScan cfg now st).2.1.count u = 1 := by simpa using hcw
  have hcc0 : (sweepScan cfg now st).2.2.count u = 0 := by simpa using hcc
  have hnotc : u ∉ (sweepScan cfg now st).2.2 := List.count_eq_zero.mp hcc0
  have hl1 : alookup (sweepScan cfg now st).1 u =
      some { s with inactivity_warning_sent := true } := by
    rw [sweepScan_fst_alookup, h]
    simp [hscan]
  have hn1 : NodupKeys (sweepScan cfg now st).1 := by
    unfold NodupKeys
    rw [keys_sweepScan]
    exact hn
  constructor
  · show countMsg (_ ++ _) u _ = 1
    rw [countMsg_append]
    rw [runWarnings_msgs cfg now _ hnot, countMsg_map_const, if_pos rfl, hwc]
    rw [runClosures_msgs cfg now _ hnot, countMsg_map_const]
    by_cases hx : warningMessage cfg = closingMessage
    · exact absurd hx (warningMessage_ne_closing cfg)
    · rw [if_neg hx]
  · constructor
    · obtain ⟨s2, h2, hc2⟩ := runWarnings_core cfg now (sweepScan cfg now st).2.1
        (sweepScan cfg now st).1 u { s with inactivity_warning_sent := true } hl1
      refine ⟨s2, ?_, ?_, ?_, ?_, ?_⟩
      · show alookup (runClosures cfg now (sweepScan cfg now st).2.2
          (runWarnings cfg now (sweepScan cfg now st).2.1 (sweepScan cfg now st).1).1).1 u = some s2
        rw [runClosures_lookup_not_mem cfg now _ u hnotc]
        exact h2
      · exact hc2.2.2.2.2.2.1
      · exact hc2.2.1
      · exact hc2.2.2.2.2.2.2.1
      · exact hc2.2.2.2.2.2.2.2
    · apply nodupKeys_runClosures
      apply nodupKeys_runWarnings
      exact hn1

theorem tick_warn_flag_inv (cfg : Config) (now : Int) (st : Store) (u : String)
    (hn : NodupKeys st)
    (hinv : ∀ s, alookup st u = some s → s.inactivity_warning_sent = true) :
    countMsg (sweepTick cfg now st).2 u (warningMessage cfg) = 0 ∧
    NodupKeys (sweepTick cfg now st).1 ∧
    (∀ s, alookup (sweepTick cfg now st).1 u = some s →
      s.inactivity_warning_sent = true) := by
  have hndtick : NodupKeys (sweepTick cfg now st).1 := by
    apply nodupKeys_runClosures
    apply nodupKeys_runWarnings
    unfold NodupKeys
    rw [keys_sweepScan]
    exact hn
  rcases hlk : alookup st u with _ | s
  · have hk : u ∉ keys st := alookup_none_not_mem_keys st u hlk
    obtain ⟨h1, h2⟩ := sweepTick_absent cfg now st u hk
    exact ⟨h1 _, hndtick,
      fun s hs => absurd hs (by rw [alookup_eq_none_of_not_mem_keys _ u h2]; simp)⟩
  · have hflag := hinv s hlk
    obtain ⟨hsw, hsf⟩ := scanSession_flag_true cfg now s hflag
    obtain ⟨hcw, hcc⟩ := sweepScan_count cfg now st u s hn hlk
    rw [hsw] at hcw
    have hwc0 : (sweepScan cfg now st).2.1.count u = 0 := by simpa using hcw
    have hnotw : u ∉ (sweepScan cfg now st).2.1 := List.count_eq_zero.mp hwc0
    have hl1 : alookup (sweepScan cfg now st).1 u =
        some (scanSession cfg now s).1 := by
      rw [sweepScan_fst_alookup, hlk]
      rfl
    have hn1 : NodupKeys (sweepScan cfg now st).1 := by
      unfold NodupKeys
      rw [keys_sweepScan]
      exact hn
    refine ⟨?_, hndtick, ?_⟩
    · show countMsg (_ ++ _) u _ = 0
      rw [countMsg_append]
      rw [countMsg_zero_of_recipients _ u _
        (fun p hp hpe => hnotw (hpe ▸ runWarnings_recipients cfg now _ _ p hp))]
      rcases hnot2 : cfg.notifierSet with _ | _
      · rw [runClosures_msgs_off cfg now _ hnot2]
        rfl
      · rw [runClosures_msgs cfg now _ hnot2, countMsg_map_const,
          if_neg (warningMessage_ne_closing cfg)]
    · intro s2 hs2
      by_cases hb : (scanSession cfg now s).2.2 = true
      · have hcc1 : (sweepScan cfg now st).2.2.count u = 1 := by
          rw [hcc, if_pos hb]
        have : alookup (sweepTick cfg now st).1 u = none := by
          show alookup (runClosures cfg now (sweepScan cfg now st).2.2
            (runWarnings cfg now (sweepScan cfg now st).2.1 (sweepScan cfg now st).1).1).1 u = none
          exact runClosures_erases cfg now _ u _
            (nodupKeys_runWarnings cfg now _ _ hn1) hcc1
        rw [this] at hs2
        exact Option.noConfusion hs2
      · have hcc0 : (sweepScan cfg now st).2.2.count u = 0 := by
          rw [hcc, if_neg hb]
        obtain ⟨s3, h3, hc3⟩ := runWarnings_core cfg now (sweepScan cfg now st).2.1
          (sweepScan cfg now st).1 u (scanSession cfg now s).1 hl1
        have : alookup (sweepTick cfg now st).1 u = some s3 := by
          show alookup (runClosures cfg now (sweepScan cfg now st).2.2
            (runWarnings cfg now (sweepScan cfg now st).2.1 (sweepScan cfg now st).1).1).1 u = some s3
          rw [runClosures_lookup_not_mem cfg now _ u (List.count_eq_zero.mp hcc0)]
          exact h3
        rw [this] at hs2
        have hs2' : s2 = s3 := by
          injection hs2 with hh
          exact hh.symm
        rw [hs2', hc3.2.2.2.2.2.1]
        exact hsf

theorem iterTicks_warn_flag_inv (cfg : Config) (u : String) (ts : List Int) :
    ∀ st : Store, NodupKeys st →
      (∀ s, alookup st u = some s → s.inactivity_warning_sent = true) →
      countMsg (iterTicks cfg ts st).2 u (warningMessage cfg) = 0 := by
  induction ts with
  | nil => intro st _ _; rfl
  | cons t rest ih =>
      intro st hn hinv
      obtain ⟨h1, h2, h3⟩ := tick_warn_flag_inv cfg t st u hn hinv
      show countMsg (_ ++ _) u _ = 0
      rw [countMsg_append, h1, ih _ h2 h3]

theorem isSessionActive_none (T : Nat) (t : Int) (u : String) (st : Store)
    (h : alookup st u = none) : isSessionActive T t u st = false := by
  simp [isSessionActive, h]

/-! ## Claim C1 -/

/-- **C1**: a session inactive for at least `session_timeout` seconds
with `closing_notice_sent` still false receives exactly one closing
notice in a single sweep tick, the closing notice is appended to the
session's history (inside `_close_inactive_session`, just before the
delete), and the session is deleted — so `is_session_active` is false at
every later check and no further sweep tick ever sends a closing notice
for this inactivity period. -/
theorem sweep_close_once_and_delete (cfg : Config) (now : Int) (st : Store) (u : String)
    (s : Session)
    (hnot : cfg.notifierSet = true) (hn : NodupKeys st) (h : alookup st u = some s)
    (hc1 : (cfg.session_timeout : Int) ≤ now - s.last_activity)
    (hc2 : s.closing_notice_sent = false) :
    countMsg (sweepTick cfg now st).2 u closingMessage = 1 ∧
    alookup (sweepTick cfg now st).1 u = none ∧
    (∀ t, isSessionActive cfg.session_timeout t u (sweepTick cfg now st).1 = false) ∧
    (∀ ts, countMsg (iterTicks cfg ts (sweepTick cfg now st).1).2 u closingMessage = 0) ∧
    (∀ (st2 : Store) (s2 : Session), alookup st2 u = some s2 →
      alookup (appendSystemEntry now closingMessage u st2) u =
        some { s2 with message_history :=
          s2.message_history ++ [systemEntry now closingMessage] }) := by
  have hscan : scanSession cfg now s = ({ s with closing_notice_sent := true }, false, true) :=
    scanSession_close cfg now s hc1 hc2
  obtain ⟨hcw, hcc⟩ := sweepScan_count cfg now st u s hn h
  rw [hscan] at hcw hcc
  have hwc0 : (sweepScan cfg now st).2.1.count u = 0 := by simpa using hcw
  have hcc1 : (sweepScan cfg now st).2.2.count u = 1 := by simpa using hcc
  have hnotw : u ∉ (sweepScan cfg now st).2.1 := List.count_eq_zero.mp hwc0
  have hn1 : NodupKeys (sweepScan cfg now st).1 := by
    unfold NodupKeys
    rw [keys_sweepScan]
    exact hn
  have hlooknone : alookup (sweepTick cfg now st).1 u = none := by
    show alookup (runClosures cfg now (sweepScan cfg now st).2.2
      (runWarnings cfg now (sweepScan cfg now st).2.1 (sweepScan cfg now st).1).1).1 u = none
    exact runClosures_erases cfg now _ u _
      (nodupKeys_runWarnings cfg now _ _ hn1) hcc1
  refine ⟨?_, hlooknone, fun t => isSessionActive_none _ t u _ hlooknone, fun ts => ?_, ?_⟩
  · show countMsg (_ ++ _) u _ = 1
    rw [countMsg_append]
    rw [countMsg_zero_of_recipients _ u _
      (fun p hp hpe => hnotw (hpe ▸ runWarnings_recipients cfg now _ _ p hp))]
    rw [runClosures_msgs cfg now _ hnot, countMsg_map_const, if_pos rfl, hcc1]
  · exact (iterTicks_absent cfg u ts _
      (alookup_none_not_mem_keys _ u hlooknone)).1 closingMessage
  · intro st2 s2 h2
    exact alookup_appendSystemEntry_self now closingMessage u st2 s2 h2

/-- Concrete sweeper configuration (timeout 600 s, warning 300 s,
notifier installed). -/
def sweepCfg : Config :=
  { session_timeout := 600, inactivity_warning := 300, notifierSet := true }

/-- A store holding one session last active at time 0. -/
def staleStore : Store := [("u1", freshSession 0)]

/-- Witness for C1: at `now = 600` the session of `staleStore` is 600 s
inactive and gets closed. -/
theorem sweep_close_once_and_delete_witness :
    countMsg (sweepTick sweepCfg 600 staleStore).2 "u1" closingMessage = 1 ∧
    alookup (sweepTick sweepCfg 600 staleStore).1 "u1" = none ∧
    (∀ t, isSessionActive sweepCfg.session_timeout t "u1"
      (sweepTick sweepCfg 600 staleStore).1 = false) ∧
    (∀ ts, countMsg (iterTicks sweepCfg ts (sweepTick sweepCfg 600 staleStore).1).2
      "u1" closingMessage = 0) ∧
    (∀ (st2 : Store) (s2 : Session), alookup st2 "u1" = some s2 →
      alookup (appendSystemEntry 600 closingMessage "u1" st2) "u1" =
        some { s2 with message_history :=
          s2.message_history ++ [systemEntry 600 closingMessage] }) :=
  sweep_close_once_and_delete sweepCfg 600 staleStore "u1" (freshSession 0)
    rfl (by simp [NodupKeys, keys, staleStore]) rfl (by decide) rfl

/-! ## Claim C2 -/

/-- **C2**: a session inactive for at least `inactivity_warning` but less
than `session_timeout` seconds receives exactly one warning from a sweep
tick; the flag is set and `last_activity` untouched; any number of
further sweep ticks send no more warnings to that user; and activity
(`get_session`) clears the flag, after which a tick in the warning
window warns exactly once again. -/
theorem sweep_warning_idempotent (cfg : Config) (now : Int) (st : Store) (u : String)
    (s : Session)
    (hnot : cfg.notifierSet = true) (hn : NodupKeys st) (h : alookup st u = some s)
    (hw1 : (cfg.inactivity_warning : Int) ≤ now - s.last_activity)
    (hw2 : now - s.last_activity < (cfg.session_timeout : Int))
    (hflag : s.inactivity_warning_sent = false) :
    countMsg (sweepTick cfg now st).2 u (warningMessage cfg) = 1 ∧
    (∃ s', alookup (sweepTick cfg now st).1 u = some s' ∧
      s'.inactivity_warning_sent = true ∧ s'.last_activity = s.last_activity) ∧
    (∀ ts, countMsg (iterTicks cfg ts (sweepTick cfg now st).1).2 u
      (warningMessage cfg) = 0) ∧
    (∀ t', ∃ s'', alookup (getSession t' u (sweepTick cfg now st).1).1 u = some s'' ∧
      s''.inactivity_warning_sent = false ∧
      ∀ now', (cfg.inactivity_warning : Int) ≤ now' - t' →
        now' - t' < (cfg.session_timeout : Int) →
        countMsg (sweepTick cfg now'
          (getSession t' u (sweepTick cfg now st).1).1).2 u (warningMessage cfg) = 1) := by
  obtain ⟨hcount, ⟨s', hs', hf', hl', hcl', hm'⟩, hnd⟩ :=
    tick_warn_once cfg now st u s hnot hn h hw1 hw2 hflag
  refine ⟨hcount, ⟨s', hs', hf', hl'⟩, fun ts => ?_, fun t' => ?_⟩
  · apply iterTicks_warn_flag_inv cfg u ts _ hnd
    intro s0 hs0
    rw [hs'] at hs0
    injection hs0 with hh
    rw [← hh]
    exact hf'
  · have hst2 : (getSession t' u (sweepTick cfg now st).1).1 =
        aset (sweepTick cfg now st).1 u
          { s' with
              last_activity := t'
              inactivity_warning_sent := false
              closing_notice_sent := false } :=
      getSession_existing t' u _ s' hs'
    have hlk2 : alookup (getSession t' u (sweepTick cfg now st).1).1 u =
        some { s' with
                 last_activity := t'
                 inactivity_warning_sent := false
                 closing_notice_sent := false } := by
      rw [hst2]
      exact alookup_aset_self _ u _
    refine ⟨_, hlk2, rfl, ?_⟩
    intro now' hb1 hb2
    have hn2 : NodupKeys (getSession t' u (sweepTick cfg now st).1).1 := by
      rw [hst2]
      exact nodupKeys_aset _ u _ hnd
    exact (tick_warn_once cfg now' _ u _ hnot hn2 hlk2 hb1 hb2 rfl).1

/-- Witness for C2: at `now = 300` the session of `staleStore` is 300 s
inactive (inside the warning window) and gets warned. -/
theorem sweep_warning_idempotent_witness :
    countMsg (sweepTick sweepCfg 300 staleStore).2 "u1" (warningMessage sweepCfg) = 1 ∧
    (∃ s', alookup (sweepTick sweepCfg 300 staleStore).1 "u1" = some s' ∧
      s'.inactivity_warning_sent = true ∧ s'.last_activity = (freshSession 0).last_activity) ∧
    (∀ ts, countMsg (iterTicks sweepCfg ts (sweepTick sweepCfg 300 staleStore).1).2 "u1"
      (warningMessage sweepCfg) = 0) ∧
    (∀ t', ∃ s'', alookup (getSession t' "u1" (sweepTick sweepCfg 300 staleStore).1).1 "u1"
        = some s'' ∧
      s''.inactivity_warning_sent = false ∧
      ∀ now', (sweepCfg.inactivity_warning : Int) ≤ now' - t' →
        now' - t' < (sweepCfg.session_timeout : Int) →
        countMsg (sweepTick sweepCfg now'
          (getSession t' "u1" (sweepTick sweepCfg 300 staleStore).1).1).2 "u1"
          (warningMessage sweepCfg) = 1) :=
  sweep_warning_idempotent sweepCfg 300 staleStore "u1" (freshSession 0)
    rfl (by simp [NodupKeys, keys, staleStore]) rfl (by decide) (by decide) rfl

/-! ## Claim C10 -/

/-- **C10**: the sweeper's notices append a system-tagged entry to the
session's history without refreshing `last_activity`, without clearing
either sent-flag, and without touching `meta.total_messages`; the
closing notice then deletes the session (leaving every other user's
session untouched).  By contrast `add_message_to_history` refreshes
`last_activity`, clears both flags and increments the counter. -/
theorem sweeper_notice_frame (cfg : Config) (now : Int) (st : Store) (u : String) :
    (∀ s, alookup st u = some s →
      ∃ s', alookup (sendInactivityWarning cfg now st u).1 u = some s' ∧
        s'.message_history = s.message_history ++ [systemEntry now (warningMessage cfg)] ∧
        (systemEntry now (warningMessage cfg)).msgType = some "system" ∧
        s'.last_activity = s.last_activity ∧
        s'.inactivity_warning_sent = s.inactivity_warning_sent ∧
        s'.closing_notice_sent = s.closing_notice_sent ∧
        s'.meta.total_messages = s.meta.total_messages) ∧
    (NodupKeys st → ∀ s, alookup st u = some s →
      alookup (closeInactiveSession cfg now st u).1 u = none ∧
      (∀ v, v ≠ u → alookup (closeInactiveSession cfg now st u).1 v = alookup st v) ∧
      ∃ s', alookup (appendSystemEntry now closingMessage u st) u = some s' ∧
        s'.message_history = s.message_history ++ [systemEntry now closingMessage] ∧
        (systemEntry now closingMessage).msgType = some "system" ∧
        s'.last_activity = s.last_activity ∧
        s'.inactivity_warning_sent = s.inactivity_warning_sent ∧
        s'.closing_notice_sent = s.closing_notice_sent ∧
        s'.meta.total_messages = s.meta.total_messages) ∧
    (∀ s role content, alookup st u = some s →
      ∃ s', alookup (addMessageToHistory now u role content st) u = some s' ∧
        s'.last_activity = now ∧ s'.inactivity_warning_sent = false ∧
        s'.closing_notice_sent = false ∧
        s'.meta.total_messages = s.meta.total_messages + 1) := by
  refine ⟨fun s h => ?_, fun hn s h => ?_, fun s role content h => ?_⟩
  · exact ⟨_, alookup_appendSystemEntry_self now (warningMessage cfg) u st s h,
      rfl, rfl, rfl, rfl, rfl, rfl⟩
  · have hndapp : NodupKeys (appendSystemEntry now closingMessage u st) := by
      unfold NodupKeys
      rw [keys_appendSystemEntry]
      exact hn
    refine ⟨alookup_aerase_self _ u hndapp, fun v hv => ?_, ?_⟩
    · show alookup (aerase (appendSystemEntry now closingMessage u st) u) v = alookup st v
      rw [alookup_aerase_ne _ u v hv]
      exact alookup_appendSystemEntry_ne now closingMessage u v st hv
    · exact ⟨_, alookup_appendSystemEntry_self now closingMessage u st s h,
        rfl, rfl, rfl, rfl, rfl, rfl⟩
  · simp only [addMessageToHistory, h]
    exact ⟨_, alookup_aset_self st u _, rfl, rfl, rfl, rfl⟩

/-- Witness for C10 on a concrete one-user store. -/
theorem sweeper_notice_frame_witness :
    NodupKeys demoStore ∧ alookup demoStore "u1" = some demoSession ∧
    ((∀ s, alookup demoStore "u1" = some s →
      ∃ s', alookup (sendInactivityWarning sweepCfg 400 demoStore "u1").1 "u1" = some s' ∧
        s'.message_history = s.message_history ++
          [systemEntry 400 (warningMessage sweepCfg)] ∧
        (systemEntry 400 (warningMessage sweepCfg)).msgType = some "system" ∧
        s'.last_activity = s.last_activity ∧
        s'.inactivity_warning_sent = s.inactivity_warning_sent ∧
        s'.closing_notice_sent = s.closing_notice_sent ∧
        s'.meta.total_messages = s.meta.total_messages) ∧
    (NodupKeys demoStore → ∀ s, alookup demoStore "u1" = some s →
      alookup (closeInactiveSession sweepCfg 400 demoStore "u1").1 "u1" = none ∧
      (∀ v, v ≠ "u1" →
        alookup (closeInactiveSession sweepCfg 400 demoStore "u1").1 v = alookup demoStore v) ∧
      ∃ s', alookup (appendSystemEntry 400 closingMessage "u1" demoStore) "u1" = some s' ∧
        s'.message_history = s.message_history ++ [systemEntry 400 closingMessage] ∧
        (systemEntry 400 closingMessage).msgType = some "system" ∧
        s'.last_activity = s.last_activity ∧
        s'.inactivity_warning_sent = s.inactivity_warning_sent ∧
        s'.closing_notice_sent = s.closing_notice_sent ∧
        s'.meta.total_messages = s.meta.total_messages) ∧
    (∀ s role content, alookup demoStore "u1" = some s →
      ∃ s', alookup (addMessageToHistory 400 "u1" role content demoStore) "u1" = some s' ∧
        s'.last_activity = 400 ∧ s'.inactivity_warning_sent = false ∧
        s'.closing_notice_sent = false ∧
        s'.meta.total_messages = s.meta.total_messages + 1)) :=
  ⟨by simp [NodupKeys, keys, demoStore], rfl,
    sweeper_notice_frame sweepCfg 400 demoStore "u1"⟩

/-! ## Claim C7 -/

theorem procText_askSubject :
    processTextForWhatsapp askSubjectResponse = askSubjectResponse := by decide

theorem detect_ne_special (body : String) (h : detectTicketIntent body = true) :
    pyLower body ≠ "/restart" ∧ pyLower body ≠ "/reiniciar" ∧ pyLower body ≠ "hola" ∧
    pyLower body ≠ "hi" ∧ pyLower body ≠ "hello" := by
  unfold detectTicketIntent at h
  refine ⟨?_, ?_, ?_, ?_, ?_⟩ <;> intro hc <;> rw [hc] at h <;> exact absurd h (by decide)

theorem getSession_lookup (now : Int) (u : String) (st : Store) :
    alookup (getSession now u st).1 u = some (getSession now u st).2 := by
  rcases h : alookup st u with _ | s <;>
    · simp only [getSession, h]
      exact alookup_aset_self st u _

theorem addMessage_state_context (now : Int) (u role content : String) (st : Store)
    (s : Session) (h : alookup st u = some s) :
    ∃ s2, alookup (addMessageToHistory now u role content st) u = some s2 ∧
      s2.state = s.state ∧ s2.context = s.context := by
  simp only [addMessageToHistory, h]
  exact ⟨_, alookup_aset_self st u _, rfl, rfl⟩

theorem updateSession_ticket (now : Int) (u : String) (st : Store) (s : Session)
    (h : alookup st u = some s) :
    ∃ s3, alookup (updateSession now u
        { state := some "TICKET_CREATION", context := some [] } st) u = some s3 ∧
      s3.state = "TICKET_CREATION" ∧ s3.context = [] := by
  simp only [updateSession, h]
  exact ⟨_, alookup_aset_self st u _, rfl, rfl⟩

/-- **C7**: an inbound text message matching the support-intent keyword
list, handled while the session state is not `TICKET_CREATION`, moves
the session to state `TICKET_CREATION` with empty context, and the only
reply sent asks for a ticket subject. -/
theorem ticket_intent_transition (ai : String → String → String → String) (now : Int)
    (st : Store) (waId name body : String)
    (hd : detectTicketIntent body = true)
    (hs : (getSession now waId st).2.state ≠ "TICKET_CREATION") :
    ∃ s', alookup (processWhatsappText ai now st waId name body).1 waId = some s' ∧
      s'.state = "TICKET_CREATION" ∧ s'.context = [] ∧
      (processWhatsappText ai now st waId name body).2 = [(waId, askSubjectResponse)] := by
  obtain ⟨hr1, hr2, hg1, hg2, hg3⟩ := detect_ne_special body hd
  have hrestart : ¬(pyLower body = "/restart" ∨ pyLower body = "/reiniciar") := by
    rintro (hc | hc)
    · exact hr1 hc
    · exact hr2 hc
  have hgreet : ¬((getSession now waId st).2.state = "INITIAL" ∧
      (pyLower body = "hola" ∨ pyLower body = "hi" ∨ pyLower body = "hello")) := by
    rintro ⟨_, hc | hc | hc⟩
    · exact hg1 hc
    · exact hg2 hc
    · exact hg3 hc
  have hres : processWhatsappText ai now st waId name body =
      (addMessageToHistory now waId "assistant" askSubjectResponse
        (updateSession now waId { state := some "TICKET_CREATION", context := some [] }
          (addMessageToHistory now waId "user" body (getSession now waId st).1)),
       [(waId, askSubjectResponse)]) := by
    unfold processWhatsappText
    rw [if_neg hrestart, if_neg hgreet, if_neg hs, if_pos ⟨hd, hs⟩]
    dsimp only
    rw [procText_askSubject]
  rw [hres]
  have h1 : alookup (getSession now waId st).1 waId = some (getSession now waId st).2 :=
    getSession_lookup now waId st
  obtain ⟨s2, h2, _, _⟩ :=
    addMessage_state_context now waId "user" body (getSession now waId st).1 _ h1
  obtain ⟨s3, h3, hst3, hctx3⟩ := updateSession_ticket now waId _ s2 h2
  obtain ⟨s4, h4, hst4, hctx4⟩ :=
    addMessage_state_context now waId "assistant" askSubjectResponse _ s3 h3
  exact ⟨s4, h4, hst4.trans hst3, hctx4.trans hctx3, rfl⟩

/-- Witness for C7: "tengo un error" (contains the keyword "error")
arriving for a fresh user. -/
theorem ticket_intent_transition_witness :
    detectTicketIntent "tengo un error" = true ∧
    (getSession 5 "u1" ([] : Store)).2.state ≠ "TICKET_CREATION" ∧
    ∃ s', alookup (processWhatsappText (fun _ _ _ => "") 5 ([] : Store)
        "u1" "Ana" "tengo un error").1 "u1" = some s' ∧
      s'.state = "TICKET_CREATION" ∧ s'.context = [] ∧
      (processWhatsappText (fun _ _ _ => "") 5 ([] : Store)
        "u1" "Ana" "tengo un error").2 = [("u1", askSubjectResponse)] :=
  ⟨by decide, by decide,
    ticket_intent_transition (fun _ _ _ => "") 5 ([] : Store) "u1" "Ana" "tengo un error"
      (by decide) (by decide)⟩

/-! ## Claim C8 -/

theorem waitForRun_timeout (status : Nat → String) (msgs : List AMsg)
    (h : ∀ k, k < 60 → status k ≠ "completed" ∧ status k ≠ "failed" ∧
      status k ≠ "cancelled" ∧ status k ≠ "expired") :
    ∀ n k, 60 - k ≤ n → waitForRun status msgs k = timeoutApology := by
  intro n
  induction n with
  | zero =>
      intro k hk
      rw [waitForRun, if_neg (by omega)]
  | succ n ih =>
      intro k hk
      rw [waitForRun]
      by_cases hlt : k < 60
      · obtain ⟨hc, hf, hcl, he⟩ := h k hlt
        rw [if_pos hlt, if_neg hc, if_neg ?_]
        · exact ih (k + 1) (by omega)
        · rintro (hx | hx | hx)
          · exact hf hx
          · exact hcl hx
          · exact he hx
      · rw [if_neg hlt]

/-- **C8**: when polling never observes a completed (or
failed/cancelled/expired) run within the 60-second wall-clock timeout,
`generate_assistant_response` returns the fixed timeout apology string;
the routine is a total function into `String` — the source's enclosing
`try`/`except` maps every exception to a fixed reply, so no exception
reaches the caller. -/
theorem assistant_timeout_apology (aid : String) (status : Nat → String) (msgs : List AMsg)
    (h : ∀ k, k < 60 → status k ≠ "completed" ∧ status k ≠ "failed" ∧
      status k ≠ "cancelled" ∧ status k ≠ "expired") :
    generateAssistantResponse (some aid) status msgs = timeoutApology :=
  waitForRun_timeout status msgs h 60 0 (by omega)

/-- Witness for C8: a run that stays `in_progress` forever. -/
theorem assistant_timeout_apology_witness :
    (∀ k : Nat, k < 60 → ("in_progress" : String) ≠ "completed" ∧
      ("in_progress" : String) ≠ "failed" ∧
      ("in_progress" : String) ≠ "cancelled" ∧
      ("in_progress" : String) ≠ "expired") ∧
    generateAssistantResponse (some "asst_1") (fun _ => "in_progress") [] = timeoutApology :=
  ⟨fun _ _ => ⟨by decide, by decide, by decide, by decide⟩,
    assistant_timeout_apology "asst_1" (fun _ => "in_progress") []
      (by
        intro k hk
        show ("in_progress" : String) ≠ "completed" ∧ ("in_progress" : String) ≠ "failed" ∧
          ("in_progress" : String) ≠ "cancelled" ∧ ("in_progress" : String) ≠ "expired"
        exact ⟨by decide, by decide, by decide, by decide⟩)⟩

/-! ## Claim C9 (corrected) -/

/-- **C9 counterexample**: a verification request with a configured
secret but missing `hub.mode`/`hub.verify_token` parameters is answered
with `400 Bad Request`, not the `403` the claim requires for every
non-matching request. -/
theorem verify_webhook_missing_params_counterexample :
    verifyWebhook (some "secreto") none none none = (some "Bad Request", 400) ∧
    (400 : Nat) ≠ 403 := ⟨rfl, by decide⟩

/-- **C9 amended**: when `hub.mode` and `hub.verify_token` are both
present and non-empty, the webhook answers the challenge with 200 if
`mode = "subscribe"` and the token equals the configured secret, and 403
otherwise; when either parameter is missing or empty it answers
`400 Bad Request`. -/
theorem verify_webhook_amended (envToken challenge : Option String) (ms ts : String) :
    (ms ≠ "" → ts ≠ "" →
      ((ms = "subscribe" ∧ some ts = envToken) →
        verifyWebhook envToken (some ms) (some ts) challenge = (challenge, 200)) ∧
      (¬(ms = "subscribe" ∧ some ts = envToken) →
        verifyWebhook envToken (some ms) (some ts) challenge = (some "Forbidden", 403))) ∧
    (∀ tok, verifyWebhook envToken none tok challenge = (some "Bad Request", 400)) ∧
    (∀ md, verifyWebhook envToken md none challenge = (some "Bad Request", 400)) ∧
    (∀ tok, verifyWebhook envToken (some "") tok challenge = (some "Bad Request", 400)) ∧
    (∀ md, verifyWebhook envToken md (some "") challenge = (some "Bad Request", 400)) := by
  refine ⟨fun hms hts => ⟨fun hok => ?_, fun hko => ?_⟩, fun tok => ?_, fun md => ?_,
    fun tok => ?_, fun md => ?_⟩
  · rw [verifyWebhook, if_pos (by simp [pyTruthy, hms, hts]),
      if_pos ⟨congrArg some hok.1, hok.2⟩]
  · rw [verifyWebhook, if_pos (by simp [pyTruthy, hms, hts]), if_neg ?_]
    rintro ⟨hc1, hc2⟩
    exact hko ⟨Option.some.inj hc1, hc2⟩
  · rw [verifyWebhook, if_neg (by simp [pyTruthy])]
  · rw [verifyWebhook, if_neg (by simp [pyTruthy])]
  · rw [verifyWebhook, if_neg (by simp [pyTruthy])]
  · rw [verifyWebhook, if_neg (by simp [pyTruthy])]

/-- Witness for the amended C9 at concrete parameters. -/
theorem verify_webhook_amended_witness :
    (("subscribe" : String) ≠ "" → ("secreto" : String) ≠ "" →
      ((("subscribe" : String) = "subscribe" ∧ some "secreto" = some "secreto") →
        verifyWebhook (some "secreto") (some "subscribe") (some "secreto") (some "reto123")
          = (some "reto123", 200)) ∧
      (¬(("subscribe" : String) = "subscribe" ∧ some "secreto" = some "secreto") →
        verifyWebhook (some "secreto") (some "subscribe") (some "secreto") (some "reto123")
          = (some "Forbidden", 403))) ∧
    (∀ tok, verifyWebhook (some "secreto") none tok (some "reto123")
      = (some "Bad Request", 400)) ∧
    (∀ md, verifyWebhook (some "secreto") md none (some "reto123")
      = (some "Bad Request", 400)) ∧
    (∀ tok, verifyWebhook (some "secreto") (some "") tok (some "reto123")
      = (some "Bad Request", 400)) ∧
    (∀ md, verifyWebhook (some "secreto") md (some "") (some "reto123")
      = (some "Bad Request", 400)) :=
  verify_webhook_amended (some "secreto") (some "reto123") "subscribe" "secreto"
